import Mathlib

/-!
# The `accept` command of cmd/7702 (accept.go)

A shallow embedding of `CreateAcceptCommand` (flag registration, `PreRunE`,
`RunE`), `Accept` and `GetAcceptCallData`, together with the library
functions they call on the flag strings (`common.IsHexAddress`,
`common.HexToAddress`, `common.FromHex`, `hex.EncodeToString`,
`big.Int.SetString` in base 10).

Go strings are modelled by `String` and read character by character.  The
tests that `IsHexAddress` and `SetString` make are tests on ASCII
characters, so they agree with the byte-by-byte reading on every string;
`FromHex` is only ever applied to ASCII strings here (the output of
`hex.EncodeToString` and flags that passed `IsHexAddress`), where the two
readings agree as well.  A `*big.Int` is an `Option Int` (`none` is the nil
pointer).

The collaborators that live outside accept.go (key loader, RPC client,
generated bindings, signer) are the fields of `Env`; a run is a function of
the command line and of what these collaborators answer.
-/

namespace Accept7702

/-! ## Bytes, addresses -/

/-- One byte. -/
abbrev Byte := Fin 256

/-- A Go `[]byte`. -/
abbrev Bytes := List Byte

/-- The type `common.Address`: `AddressLength = 20` bytes (kept as a list,
`SetBytes` below always produces twenty). -/
abbrev Address := List Byte

/-- The constant `common.AddressLength`. -/
def AddressLength : Nat := 20

/-- The zero value of `common.Address`. -/
def zeroAddress : Address := List.replicate AddressLength 0

/-! ## encoding/hex -/

/-- The table `hextable = "0123456789abcdef"` of encoding/hex, indexed by a nibble. -/
def hextable (n : Nat) : Char :=
  if n < 10 then Char.ofNat (48 + n) else Char.ofNat (87 + n)

/-- The loop of `hex.Encode`: two characters per byte, `hextable[v>>4]`
then `hextable[v&0x0f]`. -/
def hexEncode : Bytes → List Char
  | [] => []
  | v :: rest => hextable (v.val / 16) :: hextable (v.val % 16) :: hexEncode rest

/-- The function `hex.EncodeToString` as a Go string. -/
def EncodeToString (src : Bytes) : String := String.mk (hexEncode src)

/-- The table `reverseHexTable` of encoding/hex: the value of a hex digit,
`none` where the table holds 0xff. -/
def fromHexChar (c : Char) : Option Nat :=
  if '0' ≤ c ∧ c ≤ '9' then some (c.toNat - '0'.toNat)
  else if 'a' ≤ c ∧ c ≤ 'f' then some (c.toNat - 'a'.toNat + 10)
  else if 'A' ≤ c ∧ c ≤ 'F' then some (c.toNat - 'A'.toNat + 10)
  else none

/-- The loop of `hex.Decode` as `hex.DecodeString` returns its slice: the
bytes `(a << 4) | b` decoded before the first invalid character or before a
dangling last character (the error itself is dropped by the caller below). -/
def hexDecode : List Char → Bytes
  | p :: q :: rest =>
    match fromHexChar p, fromHexChar q with
    | some a, some b => Fin.ofNat ((a * 16 + b) % 256) :: hexDecode rest
    | _, _ => []
  | [_] => []
  | [] => []

/-- The function `common.Hex2Bytes`: `h, _ := hex.DecodeString(str); return h`. -/
def Hex2Bytes (str : List Char) : Bytes := hexDecode str

/-! ## go-ethereum common -/

/-- The function `has0xPrefix` of go-ethereum common:
`len(str) >= 2 && str[0] == '0' && (str[1] == 'x' || str[1] == 'X')`. -/
def has0xPrefix : List Char → Bool
  | c0 :: c1 :: _ => c0 == '0' && (c1 == 'x' || c1 == 'X')
  | _ => false

/-- The function `isHexCharacter` of go-ethereum common. -/
def isHexCharacter (c : Char) : Bool :=
  ('0' ≤ c && c ≤ '9') || ('a' ≤ c && c ≤ 'f') || ('A' ≤ c && c ≤ 'F')

/-- The function `isHex` of go-ethereum common: even length and hex characters only. -/
def isHex (str : List Char) : Bool :=
  if str.length % 2 != 0 then false else str.all isHexCharacter

/-- The function `common.IsHexAddress`. -/
def IsHexAddress (s : String) : Bool :=
  let s1 := if has0xPrefix s.data then s.data.drop 2 else s.data
  s1.length == 2 * AddressLength && isHex s1

/-- The function `common.FromHex`: drop an optional 0x, left-pad an odd
length with a zero digit, decode. -/
def FromHex (s : String) : Bytes :=
  let s1 := if has0xPrefix s.data then s.data.drop 2 else s.data
  let s2 := if s1.length % 2 == 1 then '0' :: s1 else s1
  Hex2Bytes s2

/-- The method `Address.SetBytes` as `common.BytesToAddress` uses it: keep
the last twenty bytes, left-pad a shorter input with zero bytes. -/
def BytesToAddress (b : Bytes) : Address :=
  let b1 := if b.length > AddressLength then b.drop (b.length - AddressLength) else b
  List.replicate (AddressLength - b1.length) 0 ++ b1

/-- The function `common.HexToAddress`. -/
def HexToAddress (s : String) : Address := BytesToAddress (FromHex s)

/-! ## math/big: `SetString` in base 10 -/

/-- The function `scanSign` of math/big: `none` when no byte can be read,
otherwise whether a minus sign was read and the unread rest (a byte that
is no sign is put back). -/
def scanSign : List Char → Option (Bool × List Char)
  | [] => none
  | ch :: rest =>
    if ch = '-' then some (true, rest)
    else if ch = '+' then some (false, rest)
    else some (false, ch :: rest)

/-- The digit value `d1` that `nat.scan` gives a character (`MaxBase + 1 = 63`
for a character that is no digit or letter). -/
def digitVal (ch : Char) : Nat :=
  if '0' ≤ ch ∧ ch ≤ '9' then ch.toNat - '0'.toNat
  else if 'a' ≤ ch ∧ ch ≤ 'z' then ch.toNat - 'a'.toNat + 10
  else if 'A' ≤ ch ∧ ch ≤ 'Z' then ch.toNat - 'A'.toNat + 10
  else 63

/-- The digit loop of `nat.scan` for base 10 with `fracOk = false`: reads
digits while `d1 < 10`, accumulating the value and counting the digits;
returns value, count and the unread rest. -/
def natScan : List Char → Nat → Nat → Nat × Nat × List Char
  | [], acc, count => (acc, count, [])
  | ch :: rest, acc, count =>
    if digitVal ch ≥ 10 then (acc, count, ch :: rest)
    else natScan rest (acc * 10 + digitVal ch) (count + 1)

/-- The call `big.NewInt(0).SetString(s, 10)`: the returned pointer and the
`ok` flag.  A sign, then at least one digit, and the whole string consumed;
`z.neg = len(z.abs) > 0 && neg`. -/
def SetString (s : String) : Option Int × Bool :=
  match scanSign s.data with
  | none => (none, false)
  | some (neg, r) =>
    match natScan r 0 0 with
    | (abs, count, rest) =>
      if count = 0 then (none, false)
      else if rest ≠ [] then (none, false)
      else (some (if abs > 0 ∧ neg then -(abs : Int) else (abs : Int)), true)

/-! ## The data model -/

/-- The struct `Action`, with the fields and field types of the literal
that `Accept` builds. -/
structure Action where
  Target : Address
  Data : Bytes
  Value : Option Int
  Nonce : Option Int
  Expiration : Option Int
  FeeToken : Address
  FeeValue : Option Int
  IsBasisPoints : Bool
deriving DecidableEq, Repr

/-- An argument handed to `abi.Pack` by this file: `[]Action` or `[][]byte`. -/
inductive PackArg where
  | actions (as : List Action)
  | byteSlices (bs : List Bytes)
deriving DecidableEq, Repr

/-- A parsed contract interface `*abi.ABI`, seen through its one method used
here, `Pack(name, args...)`. -/
structure ABI where
  Pack : String → List PackArg → Except String Bytes

/-- A bound contract `*AccountSystem7702`, seen through its one method used
here, the read-only call `Nonce(nil)`, which returns an unsigned 256-bit
counter or an error. -/
structure AccountSystem where
  Nonce : Except String Nat

/-- The collaborators of accept.go that live outside it: the key loader, the
RPC dialler, the two generated bindings and the signer. -/
structure Env (Key Client : Type) where
  KeyFromFile : String → String → Except String Key
  Dial : String → Except String Client
  DegenGambitGetAbi : Except String ABI
  NewAccountSystem7702 : Address → Client → Except String AccountSystem
  AccountSystem7702GetAbi : Except String ABI
  SignAction : Action → Key → Except String Bytes

/-- The input/output a run performs besides printing. -/
inductive Call where
  | KeyFromFile (keyfile password : String)
  | Dial (rpc : String)
  | Nonce (account : Address)
deriving DecidableEq, Repr

/-- One `fmt.Printf` of `Accept`, by its label and argument. -/
inductive Line where
  | signedAction (hexSig : String)
  | action (a : Action)
  | calldata (hexData : String)
deriving DecidableEq, Repr

/-- What a run leaves behind: the calls made, the lines printed, the `action`
local of `Accept` once it has been built, and the returned error (`none` is
a nil error). -/
structure Outcome where
  calls : List Call
  stdout : List Line
  action : Option Action
  err : Option String
deriving DecidableEq, Repr

/-! ## Flags -/

/-- The flags as given on a command line: `none` for a flag that is not passed. -/
structure CmdLine where
  keyfile : Option String
  password : Option String
  rpc : Option String
  target : Option String
  account : Option String
  actionNonce : Option String
  value : Option String
  feeToken : Option String
  feeValue : Option String
  isBasisPoints : Option Bool
deriving DecidableEq, Repr

/-- The variables that `CreateAcceptCommand` binds to flags. -/
structure Flags where
  keyfile : String
  password : String
  rpc : String
  targetAddressRaw : String
  accountAddressRaw : String
  actionNonceRaw : String
  valueRaw : String
  feeTokenRaw : String
  feeValueRaw : String
  isBasisPoints : Bool
deriving DecidableEq, Repr

/-- The `Flags().StringVar` and `Flags().BoolVar` registrations: a flag that
is not passed keeps the registered default. -/
def bindFlags (c : CmdLine) : Flags where
  keyfile := c.keyfile.getD ""
  password := c.password.getD ""
  rpc := c.rpc.getD ""
  targetAddressRaw := c.target.getD ""
  accountAddressRaw := c.account.getD ""
  actionNonceRaw := c.actionNonce.getD ""
  valueRaw := c.value.getD "0"
  feeTokenRaw := c.feeToken.getD "0x0000000000000000000000000000000000000000"
  feeValueRaw := c.feeValue.getD "0"
  isBasisPoints := c.isBasisPoints.getD false

/-- The typed variables that `PreRunE` assigns (`actionNonce`, `value` and
`feeValue` start as nil pointers). -/
structure Validated where
  targetAddress : Address
  accountAddress : Address
  actionNonce : Option Int
  value : Option Int
  feeToken : Address
  feeValue : Option Int
deriving DecidableEq, Repr

/-- The closure `PreRunE`: the checks in source order, the first failing one
returns its error; a numeric flag is parsed only when it is not the empty
string. -/
def PreRunE (f : Flags) : Except String Validated :=
  if f.keyfile = "" then
    .error "--keyfile not specified (this should be a path to an Ethereum account keystore file)"
  else if f.rpc = "" then
    .error "--rpc not specified (this should be a URL to an Ethereum JSONRPC API)"
  else if IsHexAddress f.targetAddressRaw = false then
    .error "--target is not a valid Ethereum address"
  else if IsHexAddress f.accountAddressRaw = false then
    .error "--account is not a valid Ethereum address"
  else if f.actionNonceRaw ≠ "" ∧ (SetString f.actionNonceRaw).2 = false then
    .error "--action-nonce is not a valid big integer"
  else if f.valueRaw ≠ "" ∧ (SetString f.valueRaw).2 = false then
    .error "--value is not a valid big integer"
  else if IsHexAddress f.feeTokenRaw = false then
    .error "--fee-token is not a valid Ethereum address"
  else if f.feeValueRaw ≠ "" ∧ (SetString f.feeValueRaw).2 = false then
    .error "--fee-value is not a valid big integer"
  else
    .ok {
      targetAddress := HexToAddress f.targetAddressRaw
      accountAddress := HexToAddress f.accountAddressRaw
      actionNonce := if f.actionNonceRaw ≠ "" then (SetString f.actionNonceRaw).1 else none
      value := if f.valueRaw ≠ "" then (SetString f.valueRaw).1 else none
      feeToken := HexToAddress f.feeTokenRaw
      feeValue := if f.feeValueRaw ≠ "" then (SetString f.feeValueRaw).1 else none }

/-! ## `GetAcceptCallData` and `Accept` -/

section
variable {Key Client : Type}

/-- The function `GetAcceptCallData`; the argument `boost` is not used by
the body. -/
def GetAcceptCallData (env : Env Key Client) (_boost : Bool) : Except String String :=
  match env.DegenGambitGetAbi with
  | .error err => .error ("failed to get ABI: " ++ err)
  | .ok abi =>
    match abi.Pack "accept" [] with
    | .error err => .error err
    | .ok txCalldata => .ok (EncodeToString txCalldata)

/-- The block `if actionNonce == nil` of `Accept`: the nonce to use, or the
error to return, with the calls made. -/
def resolveNonce (env : Env Key Client) (client : Client) (accountAddress : Address)
    (actionNonce : Option Int) : Except String (Option Int) × List Call :=
  match actionNonce with
  | some k => (.ok (some k), [])
  | none =>
    match env.NewAccountSystem7702 accountAddress client with
    | .error err => (.error ("failed to get AccountSystem7702 contract: " ++ err), [])
    | .ok accountSystem =>
      match accountSystem.Nonce with
      | .error err => (.error ("failed to get nonce: " ++ err), [Call.Nonce accountAddress])
      | .ok n => (.ok (some ((n : Int) + 1)), [Call.Nonce accountAddress])

/-- The function `Accept`. -/
def Accept (env : Env Key Client) (client : Client) (key : Key)
    (accountAddress targetAddress : Address) (actionNonce value : Option Int)
    (feeToken : Address) (feeValue : Option Int) (isBasisPoints : Bool) : Outcome :=
  match GetAcceptCallData env true with
  | .error err => ⟨[], [], none, some ("failed to get accept call data: " ++ err)⟩
  | .ok acceptCallData =>
    match resolveNonce env client accountAddress actionNonce with
    | (.error err, calls) => ⟨calls, [], none, some err⟩
    | (.ok actionNonce1, calls) =>
      let action : Action := {
        Target := targetAddress
        Data := FromHex acceptCallData
        Value := value
        Nonce := actionNonce1
        Expiration := some 0
        FeeToken := feeToken
        FeeValue := feeValue
        IsBasisPoints := isBasisPoints }
      match env.AccountSystem7702GetAbi with
      | .error err =>
        ⟨calls, [], some action, some ("failed to get AccountSystem7702 ABI: " ++ err)⟩
      | .ok accountSystemAbi =>
        match env.SignAction action key with
        | .error err => ⟨calls, [], some action, some ("failed to sign action: " ++ err)⟩
        | .ok signedAction =>
          let out := [Line.signedAction (EncodeToString signedAction), Line.action action]
          match accountSystemAbi.Pack "execute"
              [PackArg.actions [action], PackArg.byteSlices [signedAction]] with
          | .error err => ⟨calls, out, some action, some ("failed to pack input: " ++ err)⟩
          | .ok calldata =>
            ⟨calls, out ++ [Line.calldata (EncodeToString calldata)], some action, none⟩

/-- The closure `RunE`: load the key, dial, call `Accept`. -/
def RunE (env : Env Key Client) (f : Flags) (v : Validated) : Outcome :=
  match env.KeyFromFile f.keyfile f.password with
  | .error keyErr =>
    ⟨[Call.KeyFromFile f.keyfile f.password], [], none, some ("Failed to load key: " ++ keyErr)⟩
  | .ok key =>
    match env.Dial f.rpc with
    | .error err =>
      ⟨[Call.KeyFromFile f.keyfile f.password, Call.Dial f.rpc], [], none,
        some ("failed to connect to RPC: " ++ err)⟩
    | .ok client =>
      let r := Accept env client key v.accountAddress v.targetAddress v.actionNonce v.value
        v.feeToken v.feeValue f.isBasisPoints
      { r with calls := [Call.KeyFromFile f.keyfile f.password, Call.Dial f.rpc] ++ r.calls }

/-- One run of the command: bind the flags, `PreRunE`, and `RunE` only when
`PreRunE` returned no error. -/
def Execute (env : Env Key Client) (c : CmdLine) : Outcome :=
  match PreRunE (bindFlags c) with
  | .error err => ⟨[], [], none, some err⟩
  | .ok v => RunE env (bindFlags c) v

end

/-! ## Notions used by the statements -/

/-- The record that `PreRunE` has assigned when it returns nil. -/
def assigned (f : Flags) : Validated where
  targetAddress := HexToAddress f.targetAddressRaw
  accountAddress := HexToAddress f.accountAddressRaw
  actionNonce := if f.actionNonceRaw ≠ "" then (SetString f.actionNonceRaw).1 else none
  value := if f.valueRaw ≠ "" then (SetString f.valueRaw).1 else none
  feeToken := HexToAddress f.feeTokenRaw
  feeValue := if f.feeValueRaw ≠ "" then (SetString f.feeValueRaw).1 else none

/-- The spec's "base-10 integer": an optional sign followed by one or more
decimal digits and nothing else. -/
def specBase10Integer (s : String) : Bool :=
  match s.data with
  | [] => false
  | c :: rest =>
    if c = '+' ∨ c = '-' then !rest.isEmpty && rest.all Char.isDigit
    else (c :: rest).all Char.isDigit

/-- Whether an error message mentions a word: the word occurs in it as a
contiguous run of characters. -/
def mentions (msg word : String) : Bool :=
  msg.data.tails.any (fun t => word.data.isPrefixOf t)

/-! ## A sample world -/

/-- An interface whose `accept` takes no argument and whose `execute` packs
to a fixed byte string, for running the definitions. -/
def sampleABI : ABI where
  Pack name args :=
    if name = "accept" then
      (if args = [] then .ok [0x28, 0x52, 0xb7, 0x1c] else .error "argument count mismatch")
    else if name = "execute" then .ok [0xde, 0xad]
    else .error "method not found"

/-- An interface whose `Pack` always returns an error. -/
def failingPackABI : ABI where
  Pack _ _ := .error "argument count mismatch"

/-- A world in which every collaborator answers: the nonce query returns 5
and the signer returns a fixed byte string. -/
def sampleEnv : Env Unit Unit where
  KeyFromFile _ _ := .ok ()
  Dial _ := .ok ()
  DegenGambitGetAbi := .ok sampleABI
  NewAccountSystem7702 _ _ := .ok ⟨.ok 5⟩
  AccountSystem7702GetAbi := .ok sampleABI
  SignAction _ _ := .ok [0xab, 0xcd]

/-- A command line with the four required flags and nothing else. -/
def sampleCmdLine : CmdLine where
  keyfile := some "key.json"
  password := none
  rpc := some "http://localhost:8545"
  target := some "0x00000000000000000000000000000000000000aa"
  account := some "0x00000000000000000000000000000000000000bb"
  actionNonce := none
  value := none
  feeToken := none
  feeValue := none
  isBasisPoints := none

/-! ## The ABI encoding of the execute call

The interface definition of the account system and the go-ethereum ABI
encoder and decoder are not part of accept.go.  The definitions below model
them for the one method used, `execute(Action[], bytes[])`, with the Action
tuple `(address, bytes, uint256, uint256, uint256, address, uint256, bool)` in
the field order of the struct. -/

/-- Big-endian bytes of the low `w` bytes of `n`. -/
def toBE : Nat → Nat → Bytes
  | 0, _ => []
  | w + 1, n => toBE w (n / 256) ++ [Fin.ofNat (n % 256)]

/-- The number a big-endian byte string stands for. -/
def fromBE (bs : Bytes) : Nat := bs.foldl (fun acc b => acc * 256 + b.val) 0

/-- Modelled from the spec: the ABI word of an unsigned integer as
go-ethereum packs a `*big.Int` (`math.U256Bytes`): the value reduced modulo
2^256, two's complement for a negative one, in 32 big-endian bytes. -/
def packNum (x : Int) : Bytes := toBE 32 (x % ((2 ^ 256 : Nat) : Int)).toNat

/-- The function `common.LeftPadBytes`. -/
def LeftPadBytes (slice : Bytes) (l : Nat) : Bytes :=
  if l ≤ slice.length then slice else List.replicate (l - slice.length) 0 ++ slice

/-- The function `common.RightPadBytes`. -/
def RightPadBytes (slice : Bytes) (l : Nat) : Bytes :=
  if l ≤ slice.length then slice else slice ++ List.replicate (l - slice.length) 0

/-- Modelled from the spec: the ABI encoding of a `bytes` value, its length
word followed by the bytes right-padded to a multiple of 32. -/
def packBytesSlice (bytes : Bytes) : Bytes :=
  packNum bytes.length ++ RightPadBytes bytes ((bytes.length + 31) / 32 * 32)

/-- Modelled from the spec: the ABI word of a `bool`. -/
def packBool (b : Bool) : Bytes := packNum (if b then 1 else 0)

/-- Modelled from the spec: the ABI encoding of the Action tuple, eight head
words (the dynamic `Data` is an offset to the tail, 8 * 32) followed by the
encoding of `Data`.  A nil `*big.Int` cannot be packed (go-ethereum
dereferences it); the model returns an error for it. -/
def packAction (a : Action) : Except String Bytes :=
  match a.Value, a.Nonce, a.Expiration, a.FeeValue with
  | some value, some nonce, some expiration, some feeValue =>
    .ok (LeftPadBytes a.Target 32 ++ (packNum (8 * 32) ++ (packNum value ++ (packNum nonce ++
      (packNum expiration ++ (LeftPadBytes a.FeeToken 32 ++ (packNum feeValue ++
      (packBool a.IsBasisPoints ++ packBytesSlice a.Data))))))))
  | _, _, _, _ => .error "invalid memory address or nil pointer dereference"

/-- Packs every Action of a slice, failing at the first that fails. -/
def packActions : List Action → Except String (List Bytes)
  | [] => .ok []
  | a :: rest =>
    match packAction a with
    | .error e => .error e
    | .ok val =>
      match packActions rest with
      | .error e => .error e
      | .ok vals => .ok (val :: vals)

/-- The element loop of slice packing for a dynamic element type: per element
the offset word and the tail, the offset growing by the length of each tail. -/
def packSliceLoop : List Bytes → Nat → Bytes × Bytes
  | [], _ => ([], [])
  | val :: rest, offset =>
    ((packNum offset ++ (packSliceLoop rest (offset + val.length)).1),
      (val ++ (packSliceLoop rest (offset + val.length)).2))

/-- Modelled from the spec: the ABI encoding of a slice of dynamic elements:
the length word, one offset word per element (counted from the first offset
word), then the elements. -/
def packSlice (vals : List Bytes) : Bytes :=
  packNum vals.length ++ ((packSliceLoop vals (32 * vals.length)).1 ++
    (packSliceLoop vals (32 * vals.length)).2)

/-- Modelled from the spec: `Pack("execute", actions, signatures)` for the
declared inputs `(Action[], bytes[])`: the 4-byte method ID, the two offset
words (64 and 64 plus the length of the first encoding) and the two slice
encodings. -/
def packExecute (methodID : Bytes) (args : List PackArg) : Except String Bytes :=
  match args with
  | [PackArg.actions as, PackArg.byteSlices bs] =>
    match packActions as with
    | .error e => .error e
    | .ok vals =>
      .ok (methodID ++ (packNum 64 ++ (packNum (64 + (packSlice vals).length) ++
        (packSlice vals ++ packSlice (bs.map packBytesSlice)))))
  | _ => .error "argument count mismatch"

/-- Modelled from the spec: the account system's interface, which declares
`execute` with the given method ID. -/
def accountSystemABI (methodID : Bytes) : ABI where
  Pack name args :=
    if name = "execute" then packExecute methodID args
    else .error ("method '" ++ name ++ "' not found")

/-- Reads the 32-byte word at `pos` as a number; `none` past the end. -/
def readWord (data : Bytes) (pos : Nat) : Option Nat :=
  if pos + 32 ≤ data.length then some (fromBE ((data.drop pos).take 32)) else none

/-- Modelled from the spec: decodes an `address` word (its last twenty bytes). -/
def unpackAddress (data : Bytes) (pos : Nat) : Option Address :=
  if pos + 32 ≤ data.length then some (BytesToAddress ((data.drop pos).take 32)) else none

/-- Modelled from the spec: decodes a `bool` word, which must be 0 or 1. -/
def unpackBool (data : Bytes) (pos : Nat) : Option Bool :=
  match readWord data pos with
  | some 0 => some false
  | some 1 => some true
  | _ => none

/-- Modelled from the spec: decodes a `bytes` value at `pos`: the length
word, then that many bytes, which must lie within the data. -/
def unpackBytes (data : Bytes) (pos : Nat) : Option Bytes :=
  match readWord data pos with
  | none => none
  | some len =>
    if pos + 32 + len ≤ data.length then some ((data.drop (pos + 32)).take len) else none

/-- Modelled from the spec: decodes the Action tuple that starts at `pos`;
the offset of `Data` counts from `pos`. -/
def unpackAction (data : Bytes) (pos : Nat) : Option Action :=
  match unpackAddress data pos, readWord data (pos + 32), readWord data (pos + 64),
    readWord data (pos + 96), readWord data (pos + 128), unpackAddress data (pos + 160),
    readWord data (pos + 192), unpackBool data (pos + 224) with
  | some target, some offset, some value, some nonce, some expiration, some feeToken,
    some feeValue, some isBasisPoints =>
    match unpackBytes data (pos + offset) with
    | some d => some {
        Target := target
        Data := d
        Value := some (value : Int)
        Nonce := some (nonce : Int)
        Expiration := some (expiration : Int)
        FeeToken := feeToken
        FeeValue := some (feeValue : Int)
        IsBasisPoints := isBasisPoints }
    | none => none
  | _, _, _, _, _, _, _, _ => none

/-- The element loop of slice decoding: element `i` is found through the
`i`-th offset word, counted from `start`. -/
def unpackSliceLoop {α : Type} (elem : Bytes → Nat → Option α) (data : Bytes) (start : Nat) :
    Nat → Nat → Option (List α)
  | 0, _ => some []
  | count + 1, i =>
    match readWord data (start + 32 * i) with
    | none => none
    | some offset =>
      match elem data (start + offset) with
      | none => none
      | some x =>
        match unpackSliceLoop elem data start count (i + 1) with
        | none => none
        | some xs => some (x :: xs)

/-- Modelled from the spec: decodes a slice of dynamic elements at `pos`. -/
def unpackSlice {α : Type} (elem : Bytes → Nat → Option α) (data : Bytes) (pos : Nat) :
    Option (List α) :=
  match readWord data pos with
  | none => none
  | some count => unpackSliceLoop elem data (pos + 32) count 0

/-- Modelled from the spec: ABI-decodes the calldata of an `execute` call
with the same interface definition: the inputs `(Action[], bytes[])` read
from the bytes after the 4-byte method ID. -/
def unpackExecute (calldata : Bytes) : Option (List Action × List Bytes) :=
  match readWord (calldata.drop 4) 0, readWord (calldata.drop 4) 32 with
  | some offsetA, some offsetS =>
    match unpackSlice unpackAction (calldata.drop 4) offsetA,
      unpackSlice unpackBytes (calldata.drop 4) offsetS with
    | some as, some bs => some (as, bs)
    | _, _ => none
  | _, _ => none

/-- A world like `sampleEnv` whose account system interface packs `execute`
as modelled above. -/
def abiEnv : Env Unit Unit :=
  { sampleEnv with AccountSystem7702GetAbi := .ok (accountSystemABI [0xde, 0xad, 0xbe, 0xef]) }

/-- A `*big.Int` as it comes back from a `uint256` word: reduced modulo 2^256. -/
def wrapUint256 (x : Option Int) : Option Int :=
  match x with
  | some v => some (v % ((2 ^ 256 : Nat) : Int))
  | none => none

/-- The Action that the words of a packed Action stand for: the four
`uint256` fields reduced modulo 2^256, the other fields as they are. -/
def wrappedAction (a : Action) : Action :=
  { a with
    Value := wrapUint256 a.Value
    Nonce := wrapUint256 a.Nonce
    Expiration := wrapUint256 a.Expiration
    FeeValue := wrapUint256 a.FeeValue }

/-- Whether a `*big.Int` is set and lies in the range of a `uint256`. -/
def fitsUint256 (x : Option Int) : Bool :=
  match x with
  | some v => decide (0 ≤ v) && decide (v < ((2 ^ 256 : Nat) : Int))
  | none => false

/-- The sample command line with `--value -1`. -/
def negativeValueCmdLine : CmdLine := { sampleCmdLine with value := some "-1" }

/-- The Action that `Accept` builds for `negativeValueCmdLine` in `abiEnv`. -/
def negativeValueAction : Action where
  Target := HexToAddress "0x00000000000000000000000000000000000000aa"
  Data := [0x28, 0x52, 0xb7, 0x1c]
  Value := some (-1)
  Nonce := some 6
  Expiration := some 0
  FeeToken := zeroAddress
  FeeValue := some 0
  IsBasisPoints := false

/-! ## Lemmas on the library functions -/
theorem hextable_lt (n : Fin 16) : fromHexChar (hextable n.val) = some n.val := by
  revert n; decide

theorem hextable_not_x (n : Fin 16) : (hextable n.val == 'x' || hextable n.val == 'X') = false := by
  revert n; decide

theorem byte_recompose (v : Byte) : (Fin.ofNat ((v.val / 16 * 16 + v.val % 16) % 256) : Byte) = v := by
  apply Fin.ext
  have h := v.isLt
  have : v.val / 16 * 16 + v.val % 16 = v.val := by omega
  simp [this, Fin.ofNat]

theorem hexDecode_hexEncode (b : Bytes) : hexDecode (hexEncode b) = b := by
  induction b with
  | nil => rfl
  | cons v rest ih =>
    have h1 : v.val / 16 < 16 := by have := v.isLt; omega
    have h2 : v.val % 16 < 16 := by omega
    have e1 := hextable_lt ⟨v.val / 16, h1⟩
    have e2 := hextable_lt ⟨v.val % 16, h2⟩
    simp only at e1 e2
    simp only [hexEncode, hexDecode, e1, e2, ih, byte_recompose]

theorem hexEncode_length_even (b : Bytes) : (hexEncode b).length % 2 = 0 := by
  induction b with
  | nil => rfl
  | cons v rest ih => simp only [hexEncode, List.length_cons]; omega

theorem has0xPrefix_hexEncode (b : Bytes) : has0xPrefix (hexEncode b) = false := by
  cases b with
  | nil => rfl
  | cons v rest =>
    have h2 : v.val % 16 < 16 := by omega
    have e2 := hextable_not_x ⟨v.val % 16, h2⟩
    simp only at e2
    simp only [hexEncode, has0xPrefix, e2, Bool.and_false]

theorem FromHex_EncodeToString (b : Bytes) : FromHex (EncodeToString b) = b := by
  simp only [FromHex, EncodeToString, has0xPrefix_hexEncode, Hex2Bytes]
  simp [hexEncode_length_even, hexDecode_hexEncode]

theorem char_le_iff (a c : Char) : a ≤ c ↔ a.toNat ≤ c.toNat := by
  show (a.val ≤ c.val) ↔ _
  rw [UInt32.le_def]; rfl

theorem isDigit_iff (c : Char) : c.isDigit = true ↔ 48 ≤ c.toNat ∧ c.toNat ≤ 57 := by
  unfold Char.isDigit
  simp only [Bool.and_eq_true, decide_eq_true_eq, ge_iff_le]
  have h1 := char_le_iff '0' c
  have h2 := char_le_iff c '9'
  exact and_congr h1 h2

theorem digitVal_lt_iff (c : Char) : digitVal c < 10 ↔ c.isDigit = true := by
  rw [isDigit_iff]
  unfold digitVal
  simp only [char_le_iff]
  have e0 : '0'.toNat = 48 := rfl
  have e9 : '9'.toNat = 57 := rfl
  have ea : 'a'.toNat = 97 := rfl
  have ez : 'z'.toNat = 122 := rfl
  have eA : 'A'.toNat = 65 := rfl
  have eZ : 'Z'.toNat = 90 := rfl
  simp only [e0, e9, ea, ez, eA, eZ]
  split_ifs <;> omega

theorem natScan_of_all (r : List Char) (h : r.all Char.isDigit = true) (acc cnt : Nat) :
    (natScan r acc cnt).2.1 = cnt + r.length ∧ (natScan r acc cnt).2.2 = [] := by
  induction r generalizing acc cnt with
  | nil => simp [natScan]
  | cons ch rest ih =>
    simp only [List.all_cons, Bool.and_eq_true] at h
    have hd : ¬ digitVal ch ≥ 10 := by
      have := (digitVal_lt_iff ch).2 h.1
      omega
    simp only [natScan, hd, if_false]
    have := ih h.2 (acc * 10 + digitVal ch) (cnt + 1)
    simp only [List.length_cons]
    constructor
    · omega
    · exact this.2

theorem natScan_rest_nil (r : List Char) (acc cnt : Nat)
    (h : (natScan r acc cnt).2.2 = []) : r.all Char.isDigit = true := by
  induction r generalizing acc cnt with
  | nil => rfl
  | cons ch rest ih =>
    by_cases hd : digitVal ch ≥ 10
    · simp [natScan, hd] at h
    · simp only [natScan, hd, if_false] at h
      have h1 : ch.isDigit = true := (digitVal_lt_iff ch).1 (by omega)
      simp only [List.all_cons, h1, Bool.true_and]
      exact ih _ _ h

theorem natScan_ok_iff (r : List Char) :
    ((natScan r 0 0).2.1 ≠ 0 ∧ (natScan r 0 0).2.2 = []) ↔
      (r ≠ [] ∧ r.all Char.isDigit = true) := by
  constructor
  · rintro ⟨hc, hr⟩
    have hall := natScan_rest_nil r 0 0 hr
    refine ⟨?_, hall⟩
    rintro rfl
    simp [natScan] at hc
  · rintro ⟨hne, hall⟩
    have := natScan_of_all r hall 0 0
    refine ⟨?_, this.2⟩
    rw [this.1]
    cases r with
    | nil => exact absurd rfl hne
    | cons a l => simp

theorem SetString_ok_iff_scan (s : String) :
    (SetString s).2 = true ↔
      ∃ neg r, scanSign s.data = some (neg, r) ∧
        (natScan r 0 0).2.1 ≠ 0 ∧ (natScan r 0 0).2.2 = [] := by
  unfold SetString
  cases hs : scanSign s.data with
  | none => simp
  | some p =>
    obtain ⟨neg, r⟩ := p
    simp only [Option.some.injEq, Prod.mk.injEq]
    constructor
    · intro h
      refine ⟨neg, r, ⟨rfl, rfl⟩, ?_⟩
      by_cases hc : (natScan r 0 0).2.1 = 0
      · simp [hc] at h
      · by_cases hr : (natScan r 0 0).2.2 = []
        · exact ⟨hc, hr⟩
        · simp [hc, hr] at h
    · rintro ⟨neg1, r1, ⟨rfl, rfl⟩, h1, h2⟩
      simp [h1, h2]

theorem SetString_ok_iff (s : String) :
    (SetString s).2 = true ↔ specBase10Integer s = true := by
  rw [SetString_ok_iff_scan]
  unfold specBase10Integer
  cases hd : s.data with
  | nil => simp [scanSign]
  | cons c rest =>
    simp only [scanSign]
    by_cases hm : c = '-'
    · subst hm
      simp [natScan_ok_iff]
    · by_cases hp : c = '+'
      · subst hp
        simp [natScan_ok_iff]
      · simp only [hm, hp, if_false, Option.some.injEq, Prod.mk.injEq, or_self]
        constructor
        · rintro ⟨neg, r, ⟨-, rfl⟩, h⟩
          exact ((natScan_ok_iff _).1 h).2
        · intro h
          exact ⟨false, c :: rest, ⟨rfl, rfl⟩, (natScan_ok_iff _).2 ⟨by simp, h⟩⟩

theorem SetString_ok_some (s : String) (h : (SetString s).2 = true) :
    ∃ k, SetString s = (some k, true) := by
  unfold SetString at h ⊢
  cases hs : scanSign s.data with
  | none => rw [hs] at h; cases h
  | some p =>
    obtain ⟨neg, r⟩ := p
    rw [hs] at h
    by_cases hc : (natScan r 0 0).2.1 = 0
    · simp [hc] at h
    · by_cases hr : (natScan r 0 0).2.2 = []
      · refine ⟨if 0 < (natScan r 0 0).1 ∧ neg = true then -((natScan r 0 0).1 : Int)
          else ((natScan r 0 0).1 : Int), ?_⟩
        simp [hc, hr]
      · simp [hc, hr] at h

theorem SetString_nonpos (s : String) (v : Int) (h : (SetString s).1 = some v)
    (hsign : s.data.head? = some '-') : v ≤ 0 := by
  unfold SetString at h
  cases hd : s.data with
  | nil => rw [hd] at hsign; cases hsign
  | cons c rest =>
    rw [hd] at h hsign
    have hm : c = '-' := by
      simp only [List.head?_cons, Option.some.injEq] at hsign
      exact hsign
    simp only [scanSign, hm, if_true] at h
    by_cases hc : (natScan rest 0 0).2.1 = 0
    · simp [hc] at h
    · by_cases hr1 : (natScan rest 0 0).2.2 = []
      · simp [hc, hr1] at h
        by_cases hz : 0 < (natScan rest 0 0).1
        · rw [if_pos hz] at h
          omega
        · rw [if_neg hz] at h
          omega
      · simp [hc, hr1] at h

theorem SetString_nonneg (s : String) (v : Int) (h : (SetString s).1 = some v)
    (hsign : s.data.head? ≠ some '-') : 0 ≤ v := by
  unfold SetString at h
  cases hd : s.data with
  | nil => rw [hd] at h; simp [scanSign] at h
  | cons c rest =>
    rw [hd] at h hsign
    have hm : c ≠ '-' := by
      intro hc; apply hsign; simp [hc]
    have key : ∀ r : List Char,
        (match natScan r 0 0 with
          | (abs, count, rest) =>
            if count = 0 then ((none : Option Int), false)
            else if rest ≠ [] then (none, false)
            else (some (if abs > 0 ∧ false = true then -(abs : Int) else (abs : Int)), true)).1
          = some v → 0 ≤ v := by
      intro r hr
      by_cases hc : (natScan r 0 0).2.1 = 0
      · simp [hc] at hr
      · by_cases hr1 : (natScan r 0 0).2.2 = []
        · simp [hc, hr1] at hr
          omega
        · simp [hc, hr1] at hr
    simp only [scanSign, hm, if_false] at h
    by_cases hp : c = '+'
    · simp only [hp, if_true] at h
      exact key _ h
    · simp only [hp, if_false] at h
      exact key _ h

theorem SetString_empty : SetString "" = (none, false) := by decide

/-! ## Lemmas on the command -/

theorem PreRunE_cases (f : Flags) :
    (f.keyfile = "" ∧ PreRunE f = .error
      "--keyfile not specified (this should be a path to an Ethereum account keystore file)") ∨
    (f.keyfile ≠ "" ∧ f.rpc = "" ∧ PreRunE f = .error
      "--rpc not specified (this should be a URL to an Ethereum JSONRPC API)") ∨
    (f.keyfile ≠ "" ∧ f.rpc ≠ "" ∧ IsHexAddress f.targetAddressRaw = false ∧
      PreRunE f = .error "--target is not a valid Ethereum address") ∨
    (f.keyfile ≠ "" ∧ f.rpc ≠ "" ∧ IsHexAddress f.targetAddressRaw = true ∧
      IsHexAddress f.accountAddressRaw = false ∧
      PreRunE f = .error "--account is not a valid Ethereum address") ∨
    (f.keyfile ≠ "" ∧ f.rpc ≠ "" ∧ IsHexAddress f.targetAddressRaw = true ∧
      IsHexAddress f.accountAddressRaw = true ∧
      (f.actionNonceRaw ≠ "" ∧ (SetString f.actionNonceRaw).2 = false) ∧
      PreRunE f = .error "--action-nonce is not a valid big integer") ∨
    (f.keyfile ≠ "" ∧ f.rpc ≠ "" ∧ IsHexAddress f.targetAddressRaw = true ∧
      IsHexAddress f.accountAddressRaw = true ∧
      ¬ (f.actionNonceRaw ≠ "" ∧ (SetString f.actionNonceRaw).2 = false) ∧
      (f.valueRaw ≠ "" ∧ (SetString f.valueRaw).2 = false) ∧
      PreRunE f = .error "--value is not a valid big integer") ∨
    (f.keyfile ≠ "" ∧ f.rpc ≠ "" ∧ IsHexAddress f.targetAddressRaw = true ∧
      IsHexAddress f.accountAddressRaw = true ∧
      ¬ (f.actionNonceRaw ≠ "" ∧ (SetString f.actionNonceRaw).2 = false) ∧
      ¬ (f.valueRaw ≠ "" ∧ (SetString f.valueRaw).2 = false) ∧
      IsHexAddress f.feeTokenRaw = false ∧
      PreRunE f = .error "--fee-token is not a valid Ethereum address") ∨
    (f.keyfile ≠ "" ∧ f.rpc ≠ "" ∧ IsHexAddress f.targetAddressRaw = true ∧
      IsHexAddress f.accountAddressRaw = true ∧
      ¬ (f.actionNonceRaw ≠ "" ∧ (SetString f.actionNonceRaw).2 = false) ∧
      ¬ (f.valueRaw ≠ "" ∧ (SetString f.valueRaw).2 = false) ∧
      IsHexAddress f.feeTokenRaw = true ∧
      (f.feeValueRaw ≠ "" ∧ (SetString f.feeValueRaw).2 = false) ∧
      PreRunE f = .error "--fee-value is not a valid big integer") ∨
    (f.keyfile ≠ "" ∧ f.rpc ≠ "" ∧ IsHexAddress f.targetAddressRaw = true ∧
      IsHexAddress f.accountAddressRaw = true ∧
      ¬ (f.actionNonceRaw ≠ "" ∧ (SetString f.actionNonceRaw).2 = false) ∧
      ¬ (f.valueRaw ≠ "" ∧ (SetString f.valueRaw).2 = false) ∧
      IsHexAddress f.feeTokenRaw = true ∧
      ¬ (f.feeValueRaw ≠ "" ∧ (SetString f.feeValueRaw).2 = false) ∧
      PreRunE f = .ok (assigned f)) := by
  unfold PreRunE
  by_cases h1 : f.keyfile = ""
  · left; exact ⟨h1, by rw [if_pos h1]⟩
  right; rw [if_neg h1]
  by_cases h2 : f.rpc = ""
  · left; exact ⟨h1, h2, by rw [if_pos h2]⟩
  right; rw [if_neg h2]
  by_cases h3 : IsHexAddress f.targetAddressRaw = false
  · left; exact ⟨h1, h2, h3, by rw [if_pos h3]⟩
  right; rw [if_neg h3]
  have h3t : IsHexAddress f.targetAddressRaw = true := by
    cases h : IsHexAddress f.targetAddressRaw
    · exact absurd h h3
    · rfl
  by_cases h4 : IsHexAddress f.accountAddressRaw = false
  · left; exact ⟨h1, h2, h3t, h4, by rw [if_pos h4]⟩
  right; rw [if_neg h4]
  have h4t : IsHexAddress f.accountAddressRaw = true := by
    cases h : IsHexAddress f.accountAddressRaw
    · exact absurd h h4
    · rfl
  by_cases h5 : f.actionNonceRaw ≠ "" ∧ (SetString f.actionNonceRaw).2 = false
  · left; exact ⟨h1, h2, h3t, h4t, h5, by rw [if_pos h5]⟩
  right; rw [if_neg h5]
  by_cases h6 : f.valueRaw ≠ "" ∧ (SetString f.valueRaw).2 = false
  · left; exact ⟨h1, h2, h3t, h4t, h5, h6, by rw [if_pos h6]⟩
  right; rw [if_neg h6]
  by_cases h7 : IsHexAddress f.feeTokenRaw = false
  · left; exact ⟨h1, h2, h3t, h4t, h5, h6, h7, by rw [if_pos h7]⟩
  right; rw [if_neg h7]
  have h7t : IsHexAddress f.feeTokenRaw = true := by
    cases h : IsHexAddress f.feeTokenRaw
    · exact absurd h h7
    · rfl
  by_cases h8 : f.feeValueRaw ≠ "" ∧ (SetString f.feeValueRaw).2 = false
  · left; exact ⟨h1, h2, h3t, h4t, h5, h6, h7t, h8, by rw [if_pos h8]⟩
  right; rw [if_neg h8]
  exact ⟨h1, h2, h3t, h4t, h5, h6, h7t, h8, rfl⟩

section
variable {Key Client : Type}

theorem Execute_of_PreRunE_error (env : Env Key Client) (c : CmdLine) (e : String)
    (h : PreRunE (bindFlags c) = .error e) : Execute env c = ⟨[], [], none, some e⟩ := by
  simp only [Execute, h]

theorem PreRunE_ok_eq (f : Flags) (v : Validated) (h : PreRunE f = .ok v) : v = assigned f := by
  rcases PreRunE_cases f with h1 | h1 | h1 | h1 | h1 | h1 | h1 | h1 | h1
  · rw [h1.2] at h; cases h
  · rw [h1.2.2] at h; cases h
  · rw [h1.2.2.2] at h; cases h
  · rw [h1.2.2.2.2] at h; cases h
  · rw [h1.2.2.2.2.2] at h; cases h
  · rw [h1.2.2.2.2.2.2] at h; cases h
  · rw [h1.2.2.2.2.2.2.2] at h; cases h
  · rw [h1.2.2.2.2.2.2.2.2] at h; cases h
  · rw [h1.2.2.2.2.2.2.2.2] at h; cases h; rfl

theorem PreRunE_ok_numeric (f : Flags) (h : PreRunE f = .ok (assigned f)) :
    (f.actionNonceRaw ≠ "" → (SetString f.actionNonceRaw).2 = true) ∧
    (f.valueRaw ≠ "" → (SetString f.valueRaw).2 = true) ∧
    (f.feeValueRaw ≠ "" → (SetString f.feeValueRaw).2 = true) := by
  have key : ∀ raw : String, ¬ (raw ≠ "" ∧ (SetString raw).2 = false) → raw ≠ "" →
      (SetString raw).2 = true := by
    intro raw hn hne
    cases hb : (SetString raw).2
    · exact absurd ⟨hne, hb⟩ hn
    · rfl
  rcases PreRunE_cases f with h1 | h1 | h1 | h1 | h1 | h1 | h1 | h1 | h1
  · rw [h1.2] at h; cases h
  · rw [h1.2.2] at h; cases h
  · rw [h1.2.2.2] at h; cases h
  · rw [h1.2.2.2.2] at h; cases h
  · rw [h1.2.2.2.2.2] at h; cases h
  · rw [h1.2.2.2.2.2.2] at h; cases h
  · rw [h1.2.2.2.2.2.2.2] at h; cases h
  · rw [h1.2.2.2.2.2.2.2.2] at h; cases h
  · obtain ⟨-, -, -, -, h5, h6, -, h8, -⟩ := h1
    exact ⟨key _ h5, key _ h6, key _ h8⟩

theorem parsed_flag (raw : String) (hok : raw ≠ "" → (SetString raw).2 = true) :
    (raw ≠ "" → ∃ k : Int, SetString raw = (some k, true) ∧
      (if raw ≠ "" then (SetString raw).1 else none) = some k) ∧
    (raw = "" → (if raw ≠ "" then (SetString raw).1 else none) = none) := by
  constructor
  · intro hne
    obtain ⟨k, hk⟩ := SetString_ok_some raw (hok hne)
    exact ⟨k, hk, by rw [if_pos hne, hk]⟩
  · intro he
    rw [if_neg (not_not.mpr he)]

theorem Accept_after_sign (env : Env Key Client) (client : Client) (key : Key)
    (accountAddress targetAddress : Address) (actionNonce value : Option Int)
    (feeToken : Address) (feeValue : Option Int) (isBasisPoints : Bool)
    (hexData : String) (n : Option Int) (abi : ABI) (sig : Bytes)
    (hg : GetAcceptCallData env true = .ok hexData)
    (hr : (resolveNonce env client accountAddress actionNonce).1 = .ok n)
    (habi : env.AccountSystem7702GetAbi = .ok abi)
    (hsig : env.SignAction ⟨targetAddress, FromHex hexData, value, n, some 0, feeToken,
      feeValue, isBasisPoints⟩ key = .ok sig) :
    Accept env client key accountAddress targetAddress actionNonce value feeToken feeValue
        isBasisPoints =
      match abi.Pack "execute" [PackArg.actions [⟨targetAddress, FromHex hexData, value, n,
          some 0, feeToken, feeValue, isBasisPoints⟩], PackArg.byteSlices [sig]] with
      | .error err =>
        ⟨(resolveNonce env client accountAddress actionNonce).2,
          [Line.signedAction (EncodeToString sig),
            Line.action ⟨targetAddress, FromHex hexData, value, n, some 0, feeToken,
              feeValue, isBasisPoints⟩],
          some ⟨targetAddress, FromHex hexData, value, n, some 0, feeToken, feeValue,
            isBasisPoints⟩,
          some ("failed to pack input: " ++ err)⟩
      | .ok calldata =>
        ⟨(resolveNonce env client accountAddress actionNonce).2,
          [Line.signedAction (EncodeToString sig),
            Line.action ⟨targetAddress, FromHex hexData, value, n, some 0, feeToken,
              feeValue, isBasisPoints⟩,
            Line.calldata (EncodeToString calldata)],
          some ⟨targetAddress, FromHex hexData, value, n, some 0, feeToken, feeValue,
            isBasisPoints⟩,
          none⟩ := by
  unfold Accept
  rw [hg]
  rcases hres : resolveNonce env client accountAddress actionNonce with ⟨(err | n1), calls⟩
  · rw [hres] at hr; cases hr
  · rw [hres] at hr
    have hn : n1 = n := Except.ok.inj hr
    subst hn
    simp only [habi, hsig]
    cases abi.Pack "execute" _ with
    | error err => rfl
    | ok calldata => rfl

theorem Accept_action_iff (env : Env Key Client) (client : Client) (key : Key)
    (accountAddress targetAddress : Address) (actionNonce value : Option Int)
    (feeToken : Address) (feeValue : Option Int) (isBasisPoints : Bool) (a : Action) :
    (Accept env client key accountAddress targetAddress actionNonce value feeToken feeValue
      isBasisPoints).action = some a ↔
    ∃ hexData n, GetAcceptCallData env true = .ok hexData ∧
      (resolveNonce env client accountAddress actionNonce).1 = .ok n ∧
      a = ⟨targetAddress, FromHex hexData, value, n, some 0, feeToken, feeValue,
        isBasisPoints⟩ := by
  unfold Accept
  cases hg : GetAcceptCallData env true with
  | error err => simp
  | ok hexData =>
    rcases hr : resolveNonce env client accountAddress actionNonce with ⟨(err | n), calls⟩
    · simp
    · simp only [Except.ok.injEq, exists_and_left, exists_eq_left']
      cases env.AccountSystem7702GetAbi with
      | error err => simp [eq_comm]
      | ok abi =>
        simp only
        cases env.SignAction _ key with
        | error err => simp [eq_comm]
        | ok sig =>
          simp only
          cases abi.Pack "execute" _ with
          | error err => simp [eq_comm]
          | ok calldata => simp [eq_comm]

theorem Accept_calls_of_ok (env : Env Key Client) (client : Client) (key : Key)
    (accountAddress targetAddress : Address) (actionNonce value : Option Int)
    (feeToken : Address) (feeValue : Option Int) (isBasisPoints : Bool) (hexData : String)
    (hg : GetAcceptCallData env true = .ok hexData) :
    (Accept env client key accountAddress targetAddress actionNonce value feeToken feeValue
      isBasisPoints).calls = (resolveNonce env client accountAddress actionNonce).2 := by
  unfold Accept
  rw [hg]
  rcases hr : resolveNonce env client accountAddress actionNonce with ⟨(err | n), calls⟩
  · rfl
  · simp only
    cases env.AccountSystem7702GetAbi with
    | error err => rfl
    | ok abi =>
      simp only
      cases env.SignAction _ key with
      | error err => rfl
      | ok sig =>
        simp only
        cases abi.Pack "execute" _ with
        | error err => rfl
        | ok calldata => rfl

theorem Accept_calls_subset (env : Env Key Client) (client : Client) (key : Key)
    (accountAddress targetAddress : Address) (actionNonce value : Option Int)
    (feeToken : Address) (feeValue : Option Int) (isBasisPoints : Bool) (x : Call)
    (hx : x ∈ (Accept env client key accountAddress targetAddress actionNonce value feeToken
      feeValue isBasisPoints).calls) :
    x ∈ (resolveNonce env client accountAddress actionNonce).2 := by
  cases hg : GetAcceptCallData env true with
  | error err =>
    unfold Accept at hx
    rw [hg] at hx
    simp at hx
  | ok hexData =>
    rw [Accept_calls_of_ok env client key accountAddress targetAddress actionNonce value
      feeToken feeValue isBasisPoints hexData hg] at hx
    exact hx

theorem resolveNonce_some (env : Env Key Client) (client : Client) (accountAddress : Address)
    (k : Int) : resolveNonce env client accountAddress (some k) = (.ok (some k), []) := rfl

theorem resolveNonce_none_ok (env : Env Key Client) (client : Client)
    (accountAddress : Address) (sys : AccountSystem) (n : Nat)
    (hs : env.NewAccountSystem7702 accountAddress client = .ok sys) (hn : sys.Nonce = .ok n) :
    resolveNonce env client accountAddress none =
      (.ok (some ((n : Int) + 1)), [Call.Nonce accountAddress]) := by
  simp only [resolveNonce, hs, hn]

theorem Execute_of_ok (env : Env Key Client) (c : CmdLine) (v : Validated)
    (h : PreRunE (bindFlags c) = .ok v) : Execute env c = RunE env (bindFlags c) v := by
  simp only [Execute, h]

theorem RunE_of_ok (env : Env Key Client) (f : Flags) (v : Validated) (key : Key)
    (client : Client) (hk : env.KeyFromFile f.keyfile f.password = .ok key)
    (hd : env.Dial f.rpc = .ok client) :
    RunE env f v =
      { Accept env client key v.accountAddress v.targetAddress v.actionNonce v.value
          v.feeToken v.feeValue f.isBasisPoints with
        calls := [Call.KeyFromFile f.keyfile f.password, Call.Dial f.rpc] ++
          (Accept env client key v.accountAddress v.targetAddress v.actionNonce v.value
            v.feeToken v.feeValue f.isBasisPoints).calls } := by
  simp only [RunE, hk, hd]

theorem Execute_action_elim (env : Env Key Client) (c : CmdLine) (a : Action)
    (h : (Execute env c).action = some a) :
    PreRunE (bindFlags c) = .ok (assigned (bindFlags c)) ∧
    ∃ key client, env.KeyFromFile (bindFlags c).keyfile (bindFlags c).password = .ok key ∧
      env.Dial (bindFlags c).rpc = .ok client ∧
      (Accept env client key (assigned (bindFlags c)).accountAddress
        (assigned (bindFlags c)).targetAddress (assigned (bindFlags c)).actionNonce
        (assigned (bindFlags c)).value (assigned (bindFlags c)).feeToken
        (assigned (bindFlags c)).feeValue (bindFlags c).isBasisPoints).action = some a := by
  cases hp : PreRunE (bindFlags c) with
  | error e =>
    rw [Execute_of_PreRunE_error env c e hp] at h
    simp at h
  | ok v =>
    have hv := PreRunE_ok_eq _ _ hp
    subst hv
    refine ⟨rfl, ?_⟩
    rw [Execute_of_ok env c _ hp] at h
    cases hk : env.KeyFromFile (bindFlags c).keyfile (bindFlags c).password with
    | error e => simp [RunE, hk] at h
    | ok key =>
      cases hd : env.Dial (bindFlags c).rpc with
      | error e => simp [RunE, hk, hd] at h
      | ok client =>
        rw [RunE_of_ok env _ _ key client hk hd] at h
        exact ⟨key, client, rfl, rfl, h⟩

theorem parsed_or_nil (raw : String) :
    (if raw ≠ "" then (SetString raw).1 else none) = (SetString raw).1 := by
  by_cases h : raw = ""
  · subst h; rfl
  · rw [if_pos h]

end

/-! ## Lemmas on the ABI encoding -/

theorem toBE_length (w n : Nat) : (toBE w n).length = w := by
  induction w generalizing n with
  | zero => rfl
  | succ w ih => simp [toBE, ih]

theorem fromBE_append_singleton (bs : Bytes) (b : Byte) :
    fromBE (bs ++ [b]) = fromBE bs * 256 + b.val := by
  simp [fromBE, List.foldl_append]

theorem fromBE_toBE (w n : Nat) : fromBE (toBE w n) = n % 256 ^ w := by
  induction w generalizing n with
  | zero => simp [toBE, fromBE, Nat.mod_one]
  | succ w ih =>
    rw [toBE, fromBE_append_singleton, ih]
    have h1 : ((Fin.ofNat (n % 256) : Byte)).val = n % 256 := by
      simp [Fin.ofNat]
    rw [h1, pow_succ, Nat.mul_comm (256 ^ w) 256, Nat.mod_mul]
    ring

theorem packNum_length (x : Int) : (packNum x).length = 32 := toBE_length 32 _

theorem fromBE_packNum (x : Int) (h0 : 0 ≤ x) (h1 : x < ((2 ^ 256 : Nat) : Int)) :
    (fromBE (packNum x) : Int) = x := by
  unfold packNum
  rw [fromBE_toBE]
  have e : x % ((2 ^ 256 : Nat) : Int) = x := Int.emod_eq_of_lt h0 h1
  rw [e]
  have h2 : x.toNat < 256 ^ 32 := by
    have h4 : (x.toNat : Int) = x := Int.toNat_of_nonneg h0
    have h3 : ((256 : Nat) ^ 32 : Nat) = 2 ^ 256 := by norm_num
    rw [h3]
    rw [← h4] at h1
    exact_mod_cast h1
  rw [Nat.mod_eq_of_lt h2]
  exact Int.toNat_of_nonneg h0

theorem fromBE_packNum_wrap (x : Int) :
    (fromBE (packNum x) : Int) = x % ((2 ^ 256 : Nat) : Int) := by
  unfold packNum
  rw [fromBE_toBE]
  have hpos : (0 : Int) < ((2 ^ 256 : Nat) : Int) := by
    exact_mod_cast (Nat.pow_pos (by norm_num : 0 < 2) : 0 < 2 ^ 256)
  have h0 : 0 ≤ x % ((2 ^ 256 : Nat) : Int) := Int.emod_nonneg _ (ne_of_gt hpos)
  have h1 : x % ((2 ^ 256 : Nat) : Int) < ((2 ^ 256 : Nat) : Int) := Int.emod_lt_of_pos _ hpos
  have h4 : ((x % ((2 ^ 256 : Nat) : Int)).toNat : Int) = x % ((2 ^ 256 : Nat) : Int) :=
    Int.toNat_of_nonneg h0
  have h2 : (x % ((2 ^ 256 : Nat) : Int)).toNat < 256 ^ 32 := by
    have h3 : ((256 : Nat) ^ 32 : Nat) = 2 ^ 256 := by norm_num
    rw [h3]
    rw [← h4] at h1
    exact_mod_cast h1
  rw [Nat.mod_eq_of_lt h2]
  exact h4

theorem fromBE_packNum_nat (n : Nat) (h : n < 2 ^ 256) : fromBE (packNum (n : Int)) = n := by
  have := fromBE_packNum (n : Int) (Int.natCast_nonneg n) (by exact_mod_cast h)
  exact_mod_cast this

theorem take_of_length (w post : Bytes) (n : Nat) (h : w.length = n) :
    List.take n (w ++ post) = w := by
  subst h
  exact List.take_left _ _

theorem drop_of_length (pre rest : Bytes) (n : Nat) (h : pre.length = n) :
    List.drop n (pre ++ rest) = rest := by
  subst h
  exact List.drop_left _ _

theorem readWord_at (pre w post : Bytes) (hw : w.length = 32) :
    readWord (pre ++ (w ++ post)) pre.length = some (fromBE w) := by
  unfold readWord
  have h : pre.length + 32 ≤ (pre ++ (w ++ post)).length := by
    simp only [List.length_append, hw]; omega
  rw [if_pos h, List.drop_left, take_of_length w post 32 hw]

theorem RightPadBytes_eq (b : Bytes) (l : Nat) :
    RightPadBytes b l = b ++ List.replicate (l - b.length) 0 := by
  unfold RightPadBytes
  split_ifs with h
  · have : l - b.length = 0 := by omega
    simp [this]
  · rfl

theorem LeftPadBytes_address (addr : Address) (h : addr.length = 20) :
    LeftPadBytes addr 32 = List.replicate 12 0 ++ addr := by
  unfold LeftPadBytes
  rw [if_neg (by omega), h]

theorem BytesToAddress_padded (addr : Address) (h : addr.length = 20) :
    BytesToAddress (LeftPadBytes addr 32) = addr := by
  rw [LeftPadBytes_address addr h]
  unfold BytesToAddress AddressLength
  have hl : (List.replicate 12 (0 : Byte) ++ addr).length = 32 := by simp [h]
  rw [hl]
  simp only [show (32 : Nat) > 20 from by decide, if_true]
  have : List.drop (32 - 20) (List.replicate 12 (0 : Byte) ++ addr) = addr :=
    drop_of_length _ _ _ (by simp)
  rw [this, h]
  rfl

theorem unpackAddress_at (pre post : Bytes) (addr : Address) (h : addr.length = 20) :
    unpackAddress (pre ++ (LeftPadBytes addr 32 ++ post)) pre.length = some addr := by
  have hw : (LeftPadBytes addr 32).length = 32 := by
    rw [LeftPadBytes_address addr h]; simp [h]
  unfold unpackAddress
  have hl : pre.length + 32 ≤ (pre ++ (LeftPadBytes addr 32 ++ post)).length := by
    simp only [List.length_append, hw]; omega
  rw [if_pos hl, List.drop_left, take_of_length _ post 32 hw, BytesToAddress_padded addr h]

theorem unpackBool_at (pre post : Bytes) (b : Bool) :
    unpackBool (pre ++ (packBool b ++ post)) pre.length = some b := by
  unfold unpackBool
  rw [readWord_at pre (packBool b) post (packNum_length _)]
  cases b
  · have : fromBE (packBool false) = 0 := fromBE_packNum_nat 0 (by norm_num)
    rw [this]
  · have : fromBE (packBool true) = 1 := fromBE_packNum_nat 1 (by norm_num)
    rw [this]

theorem unpackBytes_at (pre post b : Bytes) (h : b.length < 2 ^ 256) :
    unpackBytes (pre ++ (packBytesSlice b ++ post)) pre.length = some b := by
  unfold unpackBytes packBytesSlice
  rw [List.append_assoc, readWord_at pre _ _ (packNum_length _), fromBE_packNum_nat _ h]
  simp only
  rw [RightPadBytes_eq]
  have hl : pre.length + 32 + b.length ≤ (pre ++ (packNum (b.length : Int) ++
      ((b ++ List.replicate ((b.length + 31) / 32 * 32 - b.length) 0) ++ post))).length := by
    simp only [List.length_append, packNum_length]; omega
  rw [if_pos hl]
  have hd : pre.length + 32 = (pre ++ packNum (b.length : Int)).length := by
    simp only [List.length_append, packNum_length]
  rw [hd, ← List.append_assoc pre, List.drop_left, List.append_assoc, List.take_left]

theorem readWord_view (data pre w post : Bytes) (pos : Nat) (hw : w.length = 32)
    (hd : data = pre ++ (w ++ post)) (hp : pos = pre.length) :
    readWord data pos = some (fromBE w) := by
  subst hd hp
  exact readWord_at pre w post hw

theorem unpackAddress_view (data pre post : Bytes) (addr : Address) (pos : Nat)
    (h : addr.length = 20) (hd : data = pre ++ (LeftPadBytes addr 32 ++ post))
    (hp : pos = pre.length) : unpackAddress data pos = some addr := by
  subst hd hp
  exact unpackAddress_at pre post addr h

theorem unpackBool_view (data pre post : Bytes) (b : Bool) (pos : Nat)
    (hd : data = pre ++ (packBool b ++ post)) (hp : pos = pre.length) :
    unpackBool data pos = some b := by
  subst hd hp
  exact unpackBool_at pre post b

theorem unpackBytes_view (data pre post b : Bytes) (pos : Nat) (h : b.length < 2 ^ 256)
    (hd : data = pre ++ (packBytesSlice b ++ post)) (hp : pos = pre.length) :
    unpackBytes data pos = some b := by
  subst hd hp
  exact unpackBytes_at pre post b h

theorem LeftPadBytes_length (addr : Address) (h : addr.length = 20) :
    (LeftPadBytes addr 32).length = 32 := by
  rw [LeftPadBytes_address addr h]; simp [h]

theorem fitsUint256_iff (x : Option Int) :
    fitsUint256 x = true ↔ ∃ v, x = some v ∧ 0 ≤ v ∧ v < ((2 ^ 256 : Nat) : Int) := by
  cases x with
  | none => simp [fitsUint256]
  | some v =>
    unfold fitsUint256
    simp only [Bool.and_eq_true, decide_eq_true_eq]
    constructor
    · intro h
      exact ⟨v, rfl, h⟩
    · rintro ⟨w, hw, h⟩
      cases hw
      exact h

theorem packAction_ok_iff (a : Action) (val : Bytes) (hp : packAction a = .ok val) :
    ∃ value nonce expiration feeValue, a.Value = some value ∧ a.Nonce = some nonce ∧
      a.Expiration = some expiration ∧ a.FeeValue = some feeValue := by
  obtain ⟨target, d, value, nonce, expiration, feeToken, feeValue, isBasisPoints⟩ := a
  unfold packAction at hp
  cases value <;> cases nonce <;> cases expiration <;> cases feeValue <;>
    simp only [reduceCtorEq] at hp
  exact ⟨_, _, _, _, rfl, rfl, rfl, rfl⟩

theorem unpackAction_at (pre post val : Bytes) (a : Action) (hp : packAction a = .ok val)
    (hT : a.Target.length = 20) (hF : a.FeeToken.length = 20)
    (hD : a.Data.length < 2 ^ 256) :
    unpackAction (pre ++ (val ++ post)) pre.length = some (wrappedAction a) := by
  obtain ⟨value, nonce, expiration, feeValue, hV, hN, hE, hFV⟩ := packAction_ok_iff a val hp
  obtain ⟨target, d, value1, nonce1, expiration1, feeToken, feeValue1, isBasisPoints⟩ := a
  simp only at hT hF hD hV hN hE hFV
  subst hV hN hE hFV
  simp only [packAction, Except.ok.injEq] at hp
  subst hp
  have lT := LeftPadBytes_length target hT
  have lF := LeftPadBytes_length feeToken hF
  have f0 := unpackAddress_view (pre ++ ((LeftPadBytes target 32 ++ (packNum (8 * 32) ++
    (packNum value ++ (packNum nonce ++ (packNum expiration ++ (LeftPadBytes feeToken 32 ++
    (packNum feeValue ++ (packBool isBasisPoints ++ packBytesSlice d)))))))) ++ post))
    pre (packNum (8 * 32) ++ (packNum value ++ (packNum nonce ++ (packNum expiration ++
    (LeftPadBytes feeToken 32 ++ (packNum feeValue ++ (packBool isBasisPoints ++
    (packBytesSlice d ++ post))))))))
    target pre.length hT (by simp only [List.append_assoc]) rfl
  have f1 := readWord_view (pre ++ ((LeftPadBytes target 32 ++ (packNum (8 * 32) ++
    (packNum value ++ (packNum nonce ++ (packNum expiration ++ (LeftPadBytes feeToken 32 ++
    (packNum feeValue ++ (packBool isBasisPoints ++ packBytesSlice d)))))))) ++ post))
    (pre ++ LeftPadBytes target 32) (packNum (8 * 32))
    (packNum value ++ (packNum nonce ++ (packNum expiration ++
    (LeftPadBytes feeToken 32 ++ (packNum feeValue ++ (packBool isBasisPoints ++
    (packBytesSlice d ++ post)))))))
    (pre.length + 32) (packNum_length _) (by simp only [List.append_assoc])
    (by simp only [List.length_append, lT])
  have f2 := readWord_view (pre ++ ((LeftPadBytes target 32 ++ (packNum (8 * 32) ++
    (packNum value ++ (packNum nonce ++ (packNum expiration ++ (LeftPadBytes feeToken 32 ++
    (packNum feeValue ++ (packBool isBasisPoints ++ packBytesSlice d)))))))) ++ post))
    (pre ++ (LeftPadBytes target 32 ++ packNum (8 * 32))) (packNum value)
    (packNum nonce ++ (packNum expiration ++
    (LeftPadBytes feeToken 32 ++ (packNum feeValue ++ (packBool isBasisPoints ++
    (packBytesSlice d ++ post))))))
    (pre.length + 64) (packNum_length _) (by simp only [List.append_assoc])
    (by simp only [List.length_append, lT, packNum_length])
  have f3 := readWord_view (pre ++ ((LeftPadBytes target 32 ++ (packNum (8 * 32) ++
    (packNum value ++ (packNum nonce ++ (packNum expiration ++ (LeftPadBytes feeToken 32 ++
    (packNum feeValue ++ (packBool isBasisPoints ++ packBytesSlice d)))))))) ++ post))
    (pre ++ (LeftPadBytes target 32 ++ (packNum (8 * 32) ++ packNum value))) (packNum nonce)
    (packNum expiration ++
    (LeftPadBytes feeToken 32 ++ (packNum feeValue ++ (packBool isBasisPoints ++
    (packBytesSlice d ++ post)))))
    (pre.length + 96) (packNum_length _) (by simp only [List.append_assoc])
    (by simp only [List.length_append, lT, packNum_length])
  have f4 := readWord_view (pre ++ ((LeftPadBytes target 32 ++ (packNum (8 * 32) ++
    (packNum value ++ (packNum nonce ++ (packNum expiration ++ (LeftPadBytes feeToken 32 ++
    (packNum feeValue ++ (packBool isBasisPoints ++ packBytesSlice d)))))))) ++ post))
    (pre ++ (LeftPadBytes target 32 ++ (packNum (8 * 32) ++ (packNum value ++ packNum nonce))))
    (packNum expiration)
    (LeftPadBytes feeToken 32 ++ (packNum feeValue ++ (packBool isBasisPoints ++
    (packBytesSlice d ++ post))))
    (pre.length + 128) (packNum_length _) (by simp only [List.append_assoc])
    (by simp only [List.length_append, lT, packNum_length])
  have f5 := unpackAddress_view (pre ++ ((LeftPadBytes target 32 ++ (packNum (8 * 32) ++
    (packNum value ++ (packNum nonce ++ (packNum expiration ++ (LeftPadBytes feeToken 32 ++
    (packNum feeValue ++ (packBool isBasisPoints ++ packBytesSlice d)))))))) ++ post))
    (pre ++ (LeftPadBytes target 32 ++ (packNum (8 * 32) ++ (packNum value ++ (packNum nonce ++
      packNum expiration)))))
    (packNum feeValue ++ (packBool isBasisPoints ++ (packBytesSlice d ++ post)))
    feeToken (pre.length + 160) hF (by simp only [List.append_assoc])
    (by simp only [List.length_append, lT, packNum_length])
  have f6 := readWord_view (pre ++ ((LeftPadBytes target 32 ++ (packNum (8 * 32) ++
    (packNum value ++ (packNum nonce ++ (packNum expiration ++ (LeftPadBytes feeToken 32 ++
    (packNum feeValue ++ (packBool isBasisPoints ++ packBytesSlice d)))))))) ++ post))
    (pre ++ (LeftPadBytes target 32 ++ (packNum (8 * 32) ++ (packNum value ++ (packNum nonce ++
      (packNum expiration ++ LeftPadBytes feeToken 32))))))
    (packNum feeValue)
    (packBool isBasisPoints ++ (packBytesSlice d ++ post))
    (pre.length + 192) (packNum_length _) (by simp only [List.append_assoc])
    (by simp only [List.length_append, lT, lF, packNum_length])
  have f7 := unpackBool_view (pre ++ ((LeftPadBytes target 32 ++ (packNum (8 * 32) ++
    (packNum value ++ (packNum nonce ++ (packNum expiration ++ (LeftPadBytes feeToken 32 ++
    (packNum feeValue ++ (packBool isBasisPoints ++ packBytesSlice d)))))))) ++ post))
    (pre ++ (LeftPadBytes target 32 ++ (packNum (8 * 32) ++ (packNum value ++ (packNum nonce ++
      (packNum expiration ++ (LeftPadBytes feeToken 32 ++ packNum feeValue)))))))
    (packBytesSlice d ++ post) isBasisPoints
    (pre.length + 224) (by simp only [List.append_assoc])
    (by simp only [List.length_append, lT, lF, packNum_length])
  have f8 := unpackBytes_view (pre ++ ((LeftPadBytes target 32 ++ (packNum (8 * 32) ++
    (packNum value ++ (packNum nonce ++ (packNum expiration ++ (LeftPadBytes feeToken 32 ++
    (packNum feeValue ++ (packBool isBasisPoints ++ packBytesSlice d)))))))) ++ post))
    (pre ++ (LeftPadBytes target 32 ++ (packNum (8 * 32) ++ (packNum value ++ (packNum nonce ++
      (packNum expiration ++ (LeftPadBytes feeToken 32 ++ (packNum feeValue ++
      packBool isBasisPoints))))))))
    post d
    (pre.length + 256) hD (by simp only [List.append_assoc])
    (by simp only [List.length_append, lT, lF, packNum_length, packBool])
  have g1 : fromBE (packNum (8 * 32)) = 256 := fromBE_packNum_nat 256 (by norm_num)
  have g2 := fromBE_packNum_wrap value
  have g3 := fromBE_packNum_wrap nonce
  have g4 := fromBE_packNum_wrap expiration
  have g6 := fromBE_packNum_wrap feeValue
  unfold unpackAction
  rw [f0, f1, f2, f3, f4, f5, f6, f7]
  simp only [g1, f8, g2, g3, g4, g6, wrappedAction, wrapUint256]

theorem unpackSlice_singleton_at {α : Type} (elem : Bytes → Nat → Option α)
    (pre post v : Bytes) (x : α)
    (helem : ∀ pre1 post1 : Bytes, elem (pre1 ++ (v ++ post1)) pre1.length = some x) :
    unpackSlice elem (pre ++ (packSlice [v] ++ post)) pre.length = some [x] := by
  have e : pre ++ (packSlice [v] ++ post) =
      pre ++ (packNum ((1 : Nat) : Int) ++ (packNum ((32 : Nat) : Int) ++ (v ++ post))) := by
    simp only [packSlice, packSliceLoop, List.length_singleton, List.append_nil,
      List.append_assoc, Nat.mul_one]
  rw [e]
  have r0 : readWord (pre ++ (packNum ((1 : Nat) : Int) ++
      (packNum ((32 : Nat) : Int) ++ (v ++ post)))) pre.length = some 1 := by
    rw [readWord_at pre _ _ (packNum_length _), fromBE_packNum_nat 1 (by norm_num)]
  have r1 : readWord (pre ++ (packNum ((1 : Nat) : Int) ++
      (packNum ((32 : Nat) : Int) ++ (v ++ post)))) (pre.length + 32 + 32 * 0) = some 32 := by
    rw [readWord_view _ (pre ++ packNum ((1 : Nat) : Int)) (packNum ((32 : Nat) : Int))
      (v ++ post) _ (packNum_length _) (by simp only [List.append_assoc])
      (by simp only [List.length_append, packNum_length, Nat.mul_zero, Nat.add_zero]),
      fromBE_packNum_nat 32 (by norm_num)]
  have r2 : elem (pre ++ (packNum ((1 : Nat) : Int) ++
      (packNum ((32 : Nat) : Int) ++ (v ++ post)))) (pre.length + 32 + 32) = some x := by
    have h := helem (pre ++ (packNum ((1 : Nat) : Int) ++ packNum ((32 : Nat) : Int))) post
    have e1 : (pre ++ (packNum ((1 : Nat) : Int) ++ packNum ((32 : Nat) : Int))) ++ (v ++ post)
        = pre ++ (packNum ((1 : Nat) : Int) ++ (packNum ((32 : Nat) : Int) ++ (v ++ post))) := by
      simp only [List.append_assoc]
    have e2 : (pre ++ (packNum ((1 : Nat) : Int) ++ packNum ((32 : Nat) : Int))).length
        = pre.length + 32 + 32 := by
      simp only [List.length_append, packNum_length]
    rw [e1, e2] at h
    exact h
  unfold unpackSlice
  rw [r0]
  simp only [unpackSliceLoop, r1, r2]

theorem BytesToAddress_length (b : Bytes) : (BytesToAddress b).length = 20 := by
  unfold BytesToAddress AddressLength
  by_cases h : b.length > 20
  · simp only [h, if_true, List.length_append, List.length_replicate, List.length_drop]
    omega
  · simp only [h, if_false, List.length_append, List.length_replicate]
    omega

theorem HexToAddress_length (s : String) : (HexToAddress s).length = 20 :=
  BytesToAddress_length _

theorem packBytesSlice_length (b : Bytes) :
    (packBytesSlice b).length = 32 + (b.length + ((b.length + 31) / 32 * 32 - b.length)) := by
  simp only [packBytesSlice, RightPadBytes_eq, List.length_append, packNum_length,
    List.length_replicate]

theorem packAction_length (a : Action) (val : Bytes) (hp : packAction a = .ok val)
    (hT : a.Target.length = 20) (hF : a.FeeToken.length = 20) :
    val.length = 288 + (a.Data.length + ((a.Data.length + 31) / 32 * 32 - a.Data.length)) := by
  obtain ⟨target, d, value, nonce, expiration, feeToken, feeValue, isBasisPoints⟩ := a
  simp only at hT hF
  unfold packAction at hp
  cases value <;> cases nonce <;> cases expiration <;> cases feeValue <;>
    simp only [reduceCtorEq, Except.ok.injEq] at hp
  subst hp
  simp only [List.length_append, LeftPadBytes_length _ hT, LeftPadBytes_length _ hF,
    packNum_length, packBool, packBytesSlice_length]
  omega

theorem wrapUint256_of_fits (x : Option Int) (h : fitsUint256 x = true) :
    wrapUint256 x = x := by
  obtain ⟨v, rfl, h0, h1⟩ := (fitsUint256_iff x).1 h
  simp only [wrapUint256, Int.emod_eq_of_lt h0 h1]

theorem wrappedAction_of_fits (a : Action) (hV : fitsUint256 a.Value = true)
    (hN : fitsUint256 a.Nonce = true) (hE : fitsUint256 a.Expiration = true)
    (hFV : fitsUint256 a.FeeValue = true) : wrappedAction a = a := by
  simp only [wrappedAction, wrapUint256_of_fits _ hV, wrapUint256_of_fits _ hN,
    wrapUint256_of_fits _ hE, wrapUint256_of_fits _ hFV]

theorem packExecute_ok_elim (methodID calldata sig : Bytes) (a : Action)
    (hp : packExecute methodID [PackArg.actions [a], PackArg.byteSlices [sig]] = .ok calldata) :
    ∃ val, packAction a = .ok val := by
  unfold packExecute at hp
  cases hval : packAction a with
  | ok val => exact ⟨val, rfl⟩
  | error e => simp only [packActions, hval, reduceCtorEq] at hp

theorem lt_uint256_of_small (n : Nat) (h : n < 18446744073709551616) : n < 2 ^ 256 := by
  have h1 : (18446744073709551616 : Nat) = 2 ^ 64 := by norm_num
  rw [h1] at h
  exact lt_of_lt_of_le h (Nat.pow_le_pow_right (by norm_num) (by norm_num))

theorem unpackExecute_packExecute (methodID calldata sig : Bytes) (a : Action)
    (hID : methodID.length = 4)
    (hp : packExecute methodID [PackArg.actions [a], PackArg.byteSlices [sig]] = .ok calldata)
    (hT : a.Target.length = 20) (hF : a.FeeToken.length = 20)
    (hD : a.Data.length < 2 ^ 63) (hS : sig.length < 2 ^ 63) :
    unpackExecute calldata = some ([wrappedAction a], [sig]) := by
  obtain ⟨val, hval⟩ := packExecute_ok_elim methodID calldata sig a hp
  have hlen := packAction_length a val hval hT hF
  have h63 : (2 : Nat) ^ 63 = 9223372036854775808 := by norm_num
  rw [h63] at hD hS
  have hD1 : a.Data.length < 2 ^ 256 := lt_uint256_of_small _ (by omega)
  have hS1 : sig.length < 2 ^ 256 := lt_uint256_of_small _ (by omega)
  have hA : (packSlice [val]).length = 64 + val.length := by
    simp only [packSlice, packSliceLoop, List.length_append, packNum_length,
      List.length_nil]
    omega
  have hoff : 64 + (packSlice [val]).length < 2 ^ 256 :=
    lt_uint256_of_small _ (by rw [hA, hlen]; omega)
  have hcalldata : calldata = methodID ++ (packNum ((64 : Nat) : Int) ++
      (packNum ((64 + (packSlice [val]).length : Nat) : Int) ++
        (packSlice [val] ++ packSlice [packBytesSlice sig]))) := by
    unfold packExecute at hp
    simp only [packActions, hval, List.map_cons, List.map_nil] at hp
    rw [← Except.ok.inj hp]
    push_cast
    rfl
  subst hcalldata
  generalize hoffdef : 64 + (packSlice [val]).length = off at hoff
  have hbody : List.drop 4 (methodID ++ (packNum ((64 : Nat) : Int) ++ (packNum (off : Int) ++
      (packSlice [val] ++ packSlice [packBytesSlice sig])))) =
      packNum ((64 : Nat) : Int) ++ (packNum (off : Int) ++
        (packSlice [val] ++ packSlice [packBytesSlice sig])) :=
    drop_of_length _ _ _ hID
  have r0 : readWord (packNum ((64 : Nat) : Int) ++ (packNum (off : Int) ++
      (packSlice [val] ++ packSlice [packBytesSlice sig]))) 0 = some 64 := by
    have h := readWord_at [] (packNum ((64 : Nat) : Int)) (packNum (off : Int) ++
      (packSlice [val] ++ packSlice [packBytesSlice sig])) (packNum_length _)
    rw [fromBE_packNum_nat 64 (by norm_num), List.nil_append, List.length_nil] at h
    exact h
  have r1 : readWord (packNum ((64 : Nat) : Int) ++ (packNum (off : Int) ++
      (packSlice [val] ++ packSlice [packBytesSlice sig]))) 32 = some off := by
    have h := readWord_at (packNum ((64 : Nat) : Int)) (packNum (off : Int))
      (packSlice [val] ++ packSlice [packBytesSlice sig]) (packNum_length _)
    rw [fromBE_packNum_nat off hoff, packNum_length] at h
    exact h
  have r2 : unpackSlice unpackAction (packNum ((64 : Nat) : Int) ++ (packNum (off : Int) ++
      (packSlice [val] ++ packSlice [packBytesSlice sig]))) 64 = some [wrappedAction a] := by
    have h := unpackSlice_singleton_at unpackAction
      (packNum ((64 : Nat) : Int) ++ packNum (off : Int))
      (packSlice [packBytesSlice sig]) val (wrappedAction a)
      (fun pre1 post1 => unpackAction_at pre1 post1 val a hval hT hF hD1)
    rw [List.length_append, packNum_length, packNum_length, List.append_assoc] at h
    exact h
  have r3 : unpackSlice unpackBytes (packNum ((64 : Nat) : Int) ++ (packNum (off : Int) ++
      (packSlice [val] ++ packSlice [packBytesSlice sig]))) off = some [sig] := by
    have h := unpackSlice_singleton_at unpackBytes
      (packNum ((64 : Nat) : Int) ++ (packNum (off : Int) ++ packSlice [val]))
      [] (packBytesSlice sig) sig
      (fun pre1 post1 => unpackBytes_at pre1 post1 sig hS1)
    rw [List.length_append, List.length_append, packNum_length, packNum_length,
      List.append_nil, List.append_assoc, List.append_assoc] at h
    have e2 : 32 + (32 + (packSlice [val]).length) = off := by omega
    rw [e2] at h
    exact h
  unfold unpackExecute
  rw [hbody, r0, r1]
  simp only [r2, r3]

/-! ## The claims -/

section
variable {Key Client : Type}

/-- C3. A string that `common.IsHexAddress` rejects, given to `--target`,
`--account` or `--fee-token`, whatever the other flags are, makes `PreRunE`
return an error, which is the error of the run; `RunE` does not run: no call
is made (no keystore read, no dial, no nonce query), nothing is printed and
no Action is built. -/
theorem invalid_address_fails_in_PreRunE (env : Env Key Client) (c : CmdLine) (s : String)
    (hbad : IsHexAddress s = false)
    (hflag : c.target = some s ∨ c.account = some s ∨ c.feeToken = some s) :
    (∃ e, PreRunE (bindFlags c) = .error e ∧ (Execute env c).err = some e) ∧
      (Execute env c).calls = [] ∧ (Execute env c).stdout = [] ∧
      (Execute env c).action = none := by
  have h : ∃ e, PreRunE (bindFlags c) = .error e := by
    rcases PreRunE_cases (bindFlags c) with h1 | h1 | h1 | h1 | h1 | h1 | h1 | h1 | h1
    · exact ⟨_, h1.2⟩
    · exact ⟨_, h1.2.2⟩
    · exact ⟨_, h1.2.2.2⟩
    · exact ⟨_, h1.2.2.2.2⟩
    · exact ⟨_, h1.2.2.2.2.2⟩
    · exact ⟨_, h1.2.2.2.2.2.2⟩
    · exact ⟨_, h1.2.2.2.2.2.2.2⟩
    · exact ⟨_, h1.2.2.2.2.2.2.2.2⟩
    · exfalso
      obtain ⟨-, -, ht, ha, -, -, hf, -, -⟩ := h1
      rcases hflag with h | h | h
      · simp only [bindFlags, h, Option.getD_some] at ht
        rw [ht] at hbad; cases hbad
      · simp only [bindFlags, h, Option.getD_some] at ha
        rw [ha] at hbad; cases hbad
      · simp only [bindFlags, h, Option.getD_some] at hf
        rw [hf] at hbad; cases hbad
  obtain ⟨e, he⟩ := h
  rw [Execute_of_PreRunE_error env c e he]
  exact ⟨⟨e, he, rfl⟩, rfl, rfl, rfl⟩

/-- C5, as amended. When `--target` is a string that `common.IsHexAddress`
rejects, for every setting of the other flags the run fails in `PreRunE`
before the keyfile is opened (no call at all is made); the error is the one
that names `--target` whenever `--keyfile` and `--rpc` are non-empty, and
otherwise it is the `--keyfile` or the `--rpc` error, which is checked
first. -/
theorem invalid_target_fails_before_keyfile (env : Env Key Client) (c : CmdLine)
    (hbad : IsHexAddress (bindFlags c).targetAddressRaw = false) :
    (∃ e, PreRunE (bindFlags c) = .error e ∧ (Execute env c).err = some e) ∧
    (Execute env c).calls = [] ∧
    (∀ keyfile password, Call.KeyFromFile keyfile password ∉ (Execute env c).calls) ∧
    ((bindFlags c).keyfile ≠ "" → (bindFlags c).rpc ≠ "" →
      (Execute env c).err = some "--target is not a valid Ethereum address" ∧
      mentions "--target is not a valid Ethereum address" "--target" = true) ∧
    ((bindFlags c).keyfile = "" → (Execute env c).err = some
      "--keyfile not specified (this should be a path to an Ethereum account keystore file)") ∧
    ((bindFlags c).keyfile ≠ "" → (bindFlags c).rpc = "" → (Execute env c).err = some
      "--rpc not specified (this should be a URL to an Ethereum JSONRPC API)") := by
  have key : ∀ e, PreRunE (bindFlags c) = .error e →
      (∃ e, PreRunE (bindFlags c) = .error e ∧ (Execute env c).err = some e) ∧
      (Execute env c).calls = [] ∧
      (∀ keyfile password, Call.KeyFromFile keyfile password ∉ (Execute env c).calls) ∧
      (Execute env c).err = some e := by
    intro e he
    rw [Execute_of_PreRunE_error env c e he]
    exact ⟨⟨e, he, rfl⟩, rfl, fun _ _ h => List.not_mem_nil _ h, rfl⟩
  rcases PreRunE_cases (bindFlags c) with h1 | h1 | h1 | h1 | h1 | h1 | h1 | h1 | h1
  · obtain ⟨k1, k2, k3, k4⟩ := key _ h1.2
    exact ⟨k1, k2, k3, fun h => absurd h1.1 h, fun _ => k4, fun h => absurd h1.1 h⟩
  · obtain ⟨k1, k2, k3, k4⟩ := key _ h1.2.2
    exact ⟨k1, k2, k3, fun _ h => absurd h1.2.1 h, fun h => absurd h h1.1, fun _ _ => k4⟩
  · obtain ⟨k1, k2, k3, k4⟩ := key _ h1.2.2.2
    exact ⟨k1, k2, k3, fun _ _ => ⟨k4, by decide⟩, fun h => absurd h h1.1,
      fun _ h => absurd h h1.2.1⟩
  all_goals
    exfalso
    have ht := h1.2.2.1
    rw [ht] at hbad
    cases hbad

end

theorem invalid_address_fails_in_PreRunE_witness :
    IsHexAddress "0x12" = false ∧
    (Execute sampleEnv { sampleCmdLine with feeToken := some "0x12" }).calls = [] :=
  ⟨by decide,
   (invalid_address_fails_in_PreRunE sampleEnv { sampleCmdLine with feeToken := some "0x12" }
      "0x12" (by decide) (Or.inr (Or.inr rfl))).2.1⟩

/-- C5 as stated fails: with `--target not-an-address` and no `--keyfile`, the
run fails with the `--keyfile` error, whose message does not mention
`--target`. -/
theorem invalid_target_error_may_not_mention_target :
    IsHexAddress "not-an-address" = false ∧
    (Execute sampleEnv
      { sampleCmdLine with keyfile := none, target := some "not-an-address" }).err = some
      "--keyfile not specified (this should be a path to an Ethereum account keystore file)" ∧
    mentions "--keyfile not specified (this should be a path to an Ethereum account keystore file)"
      "--target" = false := by
  refine ⟨by decide, by decide, by decide⟩

theorem invalid_target_fails_before_keyfile_witness :
    IsHexAddress "not-an-address" = false ∧
    (Execute sampleEnv { sampleCmdLine with target := some "not-an-address" }).err =
      some "--target is not a valid Ethereum address" :=
  ⟨by decide,
   ((invalid_target_fails_before_keyfile sampleEnv
      { sampleCmdLine with target := some "not-an-address" } (by decide)).2.2.2.1
      (by decide) (by decide)).1⟩

section
variable {Key Client : Type}

/-- C4, as amended. For every non-empty string `s` that is not a base-10
integer and each numeric flag, a run in which that flag is `s` and the flags
checked before it are valid fails in `PreRunE` with that flag's parse error;
`RunE` and `Accept` do not run: no call is made, nothing is printed and no
Action is built. -/
theorem non_numeric_flag_fails_in_PreRunE (env : Env Key Client) (c : CmdLine) (s : String)
    (hne : s ≠ "") (hbad : specBase10Integer s = false)
    (hk : (bindFlags c).keyfile ≠ "") (hr : (bindFlags c).rpc ≠ "")
    (ht : IsHexAddress (bindFlags c).targetAddressRaw = true)
    (ha : IsHexAddress (bindFlags c).accountAddressRaw = true) :
    ((bindFlags c).actionNonceRaw = s →
      PreRunE (bindFlags c) = .error "--action-nonce is not a valid big integer" ∧
      Execute env c = ⟨[], [], none, some "--action-nonce is not a valid big integer"⟩) ∧
    ((bindFlags c).valueRaw = s →
      ((bindFlags c).actionNonceRaw = "" ∨
        specBase10Integer (bindFlags c).actionNonceRaw = true) →
      PreRunE (bindFlags c) = .error "--value is not a valid big integer" ∧
      Execute env c = ⟨[], [], none, some "--value is not a valid big integer"⟩) ∧
    ((bindFlags c).feeValueRaw = s →
      ((bindFlags c).actionNonceRaw = "" ∨
        specBase10Integer (bindFlags c).actionNonceRaw = true) →
      ((bindFlags c).valueRaw = "" ∨ specBase10Integer (bindFlags c).valueRaw = true) →
      IsHexAddress (bindFlags c).feeTokenRaw = true →
      PreRunE (bindFlags c) = .error "--fee-value is not a valid big integer" ∧
      Execute env c = ⟨[], [], none, some "--fee-value is not a valid big integer"⟩) := by
  have hfail : (SetString s).2 = false := by
    cases h : (SetString s).2
    · rfl
    · rw [(SetString_ok_iff s).1 h] at hbad; cases hbad
  have hgood : ∀ raw : String, (raw = "" ∨ specBase10Integer raw = true) →
      ¬ (raw ≠ "" ∧ (SetString raw).2 = false) := by
    rintro raw (h | h) ⟨h1, h2⟩
    · exact h1 h
    · rw [(SetString_ok_iff raw).2 h] at h2; cases h2
  have ht1 : ¬ IsHexAddress (bindFlags c).targetAddressRaw = false := by rw [ht]; simp
  have ha1 : ¬ IsHexAddress (bindFlags c).accountAddressRaw = false := by rw [ha]; simp
  refine ⟨?_, ?_, ?_⟩
  · intro hs
    have h5 : (bindFlags c).actionNonceRaw ≠ "" ∧
        (SetString (bindFlags c).actionNonceRaw).2 = false := by
      rw [hs]; exact ⟨hne, hfail⟩
    have hp : PreRunE (bindFlags c) = .error "--action-nonce is not a valid big integer" := by
      unfold PreRunE
      rw [if_neg hk, if_neg hr, if_neg ht1, if_neg ha1, if_pos h5]
    exact ⟨hp, Execute_of_PreRunE_error env c _ hp⟩
  · intro hs hn
    have h6 : (bindFlags c).valueRaw ≠ "" ∧ (SetString (bindFlags c).valueRaw).2 = false := by
      rw [hs]; exact ⟨hne, hfail⟩
    have hp : PreRunE (bindFlags c) = .error "--value is not a valid big integer" := by
      unfold PreRunE
      rw [if_neg hk, if_neg hr, if_neg ht1, if_neg ha1, if_neg (hgood _ hn), if_pos h6]
    exact ⟨hp, Execute_of_PreRunE_error env c _ hp⟩
  · intro hs hn hv hf
    have hf1 : ¬ IsHexAddress (bindFlags c).feeTokenRaw = false := by rw [hf]; simp
    have h8 : (bindFlags c).feeValueRaw ≠ "" ∧
        (SetString (bindFlags c).feeValueRaw).2 = false := by
      rw [hs]; exact ⟨hne, hfail⟩
    have hp : PreRunE (bindFlags c) = .error "--fee-value is not a valid big integer" := by
      unfold PreRunE
      rw [if_neg hk, if_neg hr, if_neg ht1, if_neg ha1, if_neg (hgood _ hn),
        if_neg (hgood _ hv), if_neg hf1, if_pos h8]
    exact ⟨hp, Execute_of_PreRunE_error env c _ hp⟩

/-- C6, as amended. In every run whose flags pass validation and in which
`Accept` builds an Action, each of Value, FeeValue and Nonce that is set is
an integer that is greater than or equal to 0 if and only if the string of
its flag does not begin with a minus sign or the integer is 0; in particular
it is greater than or equal to 0 whenever the flag does not begin with a
minus sign (a nonce taken from the chain is the unsigned counter plus one). -/
theorem action_numbers_nonneg_iff (env : Env Key Client) (c : CmdLine) (a : Action)
    (h : (Execute env c).action = some a) :
    (∀ v, a.Value = some v →
      (0 ≤ v ↔ ((bindFlags c).valueRaw.data.head? ≠ some '-' ∨ v = 0))) ∧
    (∀ v, a.FeeValue = some v →
      (0 ≤ v ↔ ((bindFlags c).feeValueRaw.data.head? ≠ some '-' ∨ v = 0))) ∧
    (∀ v, a.Nonce = some v →
      (0 ≤ v ↔ ((bindFlags c).actionNonceRaw.data.head? ≠ some '-' ∨ v = 0))) := by
  have key : ∀ (raw : String) (v : Int), (SetString raw).1 = some v →
      (0 ≤ v ↔ (raw.data.head? ≠ some '-' ∨ v = 0)) := by
    intro raw v hv
    constructor
    · intro h0
      by_cases hs : raw.data.head? = some '-'
      · right
        have := SetString_nonpos raw v hv hs
        omega
      · left; exact hs
    · rintro (hs | hz)
      · exact SetString_nonneg raw v hv hs
      · omega
  obtain ⟨hpre, key1, client, -, -, hacc⟩ := Execute_action_elim env c a h
  rw [Accept_action_iff] at hacc
  obtain ⟨hexData, n, -, hn, rfl⟩ := hacc
  refine ⟨?_, ?_, ?_⟩
  · intro v hv
    simp only [assigned, parsed_or_nil] at hv
    exact key _ v hv
  · intro v hv
    simp only [assigned, parsed_or_nil] at hv
    exact key _ v hv
  · intro v hv
    simp only at hv
    subst hv
    simp only [assigned, parsed_or_nil] at hn
    cases hp : (SetString (bindFlags c).actionNonceRaw).1 with
    | some k =>
      rw [hp, resolveNonce_some] at hn
      simp only [Except.ok.injEq, Option.some.injEq] at hn
      subst hn
      exact key _ k hp
    | none =>
      rw [hp] at hn
      have hs : (bindFlags c).actionNonceRaw.data.head? ≠ some '-' := by
        intro hminus
        cases hd : (bindFlags c).actionNonceRaw.data with
        | nil => rw [hd] at hminus; cases hminus
        | cons ch rest =>
          have hne : (bindFlags c).actionNonceRaw ≠ "" := by
            intro he
            rw [he] at hd
            cases hd
          obtain ⟨k, hk⟩ := SetString_ok_some _ ((PreRunE_ok_numeric _ hpre).1 hne)
          rw [hk] at hp
          cases hp
      unfold resolveNonce at hn
      simp only at hn
      cases hsys : env.NewAccountSystem7702 (HexToAddress (bindFlags c).accountAddressRaw)
        client with
      | error e => rw [hsys] at hn; cases hn
      | ok sys =>
        rw [hsys] at hn
        simp only at hn
        cases hq : sys.Nonce with
        | error e => rw [hq] at hn; cases hn
        | ok m =>
          rw [hq] at hn
          simp only [Except.ok.injEq, Option.some.injEq] at hn
          constructor
          · intro _; left; exact hs
          · intro _; omega

end

/-- C4 as stated fails for the empty string: `--action-nonce ""` (and
likewise `--value ""`) is not a base-10 integer, yet `PreRunE` returns no
error, `Accept` runs and an Action is built. -/
theorem empty_numeric_flag_passes_validation :
    specBase10Integer "" = false ∧
    (∃ v, PreRunE (bindFlags { sampleCmdLine with actionNonce := some "" }) = .ok v) ∧
    (Execute sampleEnv { sampleCmdLine with actionNonce := some "" }).action ≠ none ∧
    (∃ v, PreRunE (bindFlags { sampleCmdLine with value := some "" }) = .ok v) ∧
    (Execute sampleEnv { sampleCmdLine with value := some "" }).action ≠ none := by
  refine ⟨by decide, ⟨_, rfl⟩, by decide, ⟨_, rfl⟩, by decide⟩

theorem non_numeric_flag_fails_in_PreRunE_witness :
    specBase10Integer "12a" = false ∧
    Execute sampleEnv { sampleCmdLine with feeValue := some "12a" } =
      ⟨[], [], none, some "--fee-value is not a valid big integer"⟩ :=
  ⟨by decide,
   ((non_numeric_flag_fails_in_PreRunE sampleEnv { sampleCmdLine with feeValue := some "12a" }
      "12a" (by decide) (by decide) (by decide) (by decide) (by decide) (by decide)).2.2
      rfl (Or.inl rfl) (Or.inr (by decide)) (by decide)).2⟩

/-- C6 as stated fails: `--value -1` passes validation and `Accept` builds an
Action whose Value is -1; the same holds for `--fee-value -1` and
`--action-nonce -1`. -/
theorem negative_numbers_pass_validation :
    (SetString "-1" = (some (-1), true)) ∧
    (∃ a, (Execute sampleEnv { sampleCmdLine with value := some "-1" }).action = some a ∧
      a.Value = some (-1) ∧ ¬ (0 : Int) ≤ -1) ∧
    (∃ a, (Execute sampleEnv { sampleCmdLine with feeValue := some "-1" }).action = some a ∧
      a.FeeValue = some (-1)) ∧
    (∃ a, (Execute sampleEnv { sampleCmdLine with actionNonce := some "-1" }).action = some a ∧
      a.Nonce = some (-1)) := by
  refine ⟨by decide, ⟨_, rfl, by decide, by decide⟩, ⟨_, rfl, by decide⟩, ⟨_, rfl, by decide⟩⟩

theorem action_numbers_nonneg_iff_witness :
    (∃ a, (Execute sampleEnv { sampleCmdLine with value := some "1000" }).action = some a ∧
      a.Value = some 1000) ∧
    (0 : Int) ≤ 1000 ∧
    ¬ ((0 : Int) ≤ -1) :=
  ⟨⟨_, rfl, rfl⟩,
   ((action_numbers_nonneg_iff sampleEnv { sampleCmdLine with value := some "1000" }
      _ rfl).1 1000 rfl).2 (Or.inl (by decide)),
   fun h0 => absurd
     (((action_numbers_nonneg_iff sampleEnv { sampleCmdLine with value := some "-1" }
      _ rfl).1 (-1) rfl).1 h0) (by decide)⟩

section
variable {Key Client : Type}

/-- C1, as amended. In every run whose flags pass validation and in which
`Accept` reaches the construction of the Action, the key was loaded, the
client was dialled, the accept call data was produced and the nonce was
resolved, and the Action is the record with Target the address parsed from
`--target`, Data the bytes of the accept call data, Nonce the resolved nonce,
Expiration 0, FeeToken the address parsed from `--fee-token`, IsBasisPoints
the flag, and Value (FeeValue) the integer parsed from `--value`
(`--fee-value`) when that flag is not the empty string and the nil pointer
when it is.  With `--value 1000 --fee-value 250 --is-basis-points=false` and
the zero address as `--fee-token` the four fields are 1000, 250, false and
the zero address.  Conversely, a run whose flags pass validation, whose key
loads, whose client is dialled, whose call data is produced and whose nonce
is resolved builds exactly that record. -/
theorem accept_builds_action_from_flags (env : Env Key Client) (c : CmdLine) :
    (∀ a : Action, (Execute env c).action = some a →
      (∃ key client hexData n,
        PreRunE (bindFlags c) = .ok (assigned (bindFlags c)) ∧
        env.KeyFromFile (bindFlags c).keyfile (bindFlags c).password = .ok key ∧
        env.Dial (bindFlags c).rpc = .ok client ∧
        GetAcceptCallData env true = .ok hexData ∧
        (resolveNonce env client (HexToAddress (bindFlags c).accountAddressRaw)
          (assigned (bindFlags c)).actionNonce).1 = .ok n ∧
        a = {
          Target := HexToAddress (bindFlags c).targetAddressRaw
          Data := FromHex hexData
          Value := if (bindFlags c).valueRaw ≠ "" then (SetString (bindFlags c).valueRaw).1
            else none
          Nonce := n
          Expiration := some 0
          FeeToken := HexToAddress (bindFlags c).feeTokenRaw
          FeeValue := if (bindFlags c).feeValueRaw ≠ "" then
            (SetString (bindFlags c).feeValueRaw).1 else none
          IsBasisPoints := (bindFlags c).isBasisPoints }) ∧
      ((bindFlags c).valueRaw ≠ "" →
        ∃ k : Int, SetString (bindFlags c).valueRaw = (some k, true) ∧ a.Value = some k) ∧
      ((bindFlags c).valueRaw = "" → a.Value = none) ∧
      ((bindFlags c).feeValueRaw ≠ "" →
        ∃ k : Int, SetString (bindFlags c).feeValueRaw = (some k, true) ∧
          a.FeeValue = some k) ∧
      ((bindFlags c).feeValueRaw = "" → a.FeeValue = none) ∧
      a.Expiration = some 0 ∧
      (c.value = some "1000" → a.Value = some 1000) ∧
      (c.feeValue = some "250" → a.FeeValue = some 250) ∧
      (c.isBasisPoints = some false → a.IsBasisPoints = false) ∧
      (c.feeToken = some "0x0000000000000000000000000000000000000000" →
        a.FeeToken = zeroAddress)) ∧
    (∀ (key : Key) (client : Client) (hexData : String) (n : Option Int),
      PreRunE (bindFlags c) = .ok (assigned (bindFlags c)) →
      env.KeyFromFile (bindFlags c).keyfile (bindFlags c).password = .ok key →
      env.Dial (bindFlags c).rpc = .ok client →
      GetAcceptCallData env true = .ok hexData →
      (resolveNonce env client (HexToAddress (bindFlags c).accountAddressRaw)
        (assigned (bindFlags c)).actionNonce).1 = .ok n →
      (Execute env c).action = some {
        Target := HexToAddress (bindFlags c).targetAddressRaw
        Data := FromHex hexData
        Value := if (bindFlags c).valueRaw ≠ "" then (SetString (bindFlags c).valueRaw).1
          else none
        Nonce := n
        Expiration := some 0
        FeeToken := HexToAddress (bindFlags c).feeTokenRaw
        FeeValue := if (bindFlags c).feeValueRaw ≠ "" then
          (SetString (bindFlags c).feeValueRaw).1 else none
        IsBasisPoints := (bindFlags c).isBasisPoints }) := by
  constructor
  · intro a h
    obtain ⟨hp, key, client, hk, hd, hacc⟩ := Execute_action_elim env c a h
    rw [Accept_action_iff] at hacc
    obtain ⟨hexData, n, hg, hn, rfl⟩ := hacc
    obtain ⟨-, hv, hfv⟩ := PreRunE_ok_numeric _ hp
    refine ⟨⟨key, client, hexData, n, hp, hk, hd, hg, hn, rfl⟩,
      (parsed_flag _ hv).1, (parsed_flag _ hv).2, (parsed_flag _ hfv).1,
      (parsed_flag _ hfv).2, rfl, ?_, ?_, ?_, ?_⟩
    · intro hv
      simp only [assigned, parsed_or_nil, bindFlags, hv, Option.getD_some]
      decide
    · intro hv
      simp only [assigned, parsed_or_nil, bindFlags, hv, Option.getD_some]
      decide
    · intro hv
      simp only [bindFlags, hv, Option.getD_some]
    · intro hv
      simp only [assigned, bindFlags, hv, Option.getD_some]
      decide
  · intro key client hexData n hp hk hd hg hn
    rw [Execute_of_ok env c _ hp, RunE_of_ok env _ _ key client hk hd]
    exact (Accept_action_iff ..).2 ⟨hexData, n, hg, hn, rfl⟩

/-- C2. When `--action-nonce` is omitted (or empty), so that `actionNonce` is
nil, and the nonce query returns `n`, a run that gets as far as `Accept` with
its call data builds an Action whose Nonce is `n + 1`, after one nonce query.
When `--action-nonce` is a string that `SetString` parses to `k`, no nonce
query is ever made, every Action built has Nonce `k`, and a run that gets as
far as `Accept` with its call data does build one. -/
theorem nonce_resolution (env : Env Key Client) (c : CmdLine) :
    (∀ (n : Nat) (key : Key) (client : Client) (hexData : String) (sys : AccountSystem),
      (bindFlags c).actionNonceRaw = "" →
      PreRunE (bindFlags c) = .ok (assigned (bindFlags c)) →
      env.KeyFromFile (bindFlags c).keyfile (bindFlags c).password = .ok key →
      env.Dial (bindFlags c).rpc = .ok client →
      GetAcceptCallData env true = .ok hexData →
      env.NewAccountSystem7702 (HexToAddress (bindFlags c).accountAddressRaw) client
        = .ok sys →
      sys.Nonce = .ok n →
      (∃ a, (Execute env c).action = some a ∧ a.Nonce = some ((n : Int) + 1)) ∧
      (Execute env c).calls = [Call.KeyFromFile (bindFlags c).keyfile (bindFlags c).password,
        Call.Dial (bindFlags c).rpc,
        Call.Nonce (HexToAddress (bindFlags c).accountAddressRaw)]) ∧
    (∀ (s : String) (k : Int), (bindFlags c).actionNonceRaw = s →
      SetString s = (some k, true) →
      (∀ account, Call.Nonce account ∉ (Execute env c).calls) ∧
      (∀ a, (Execute env c).action = some a → a.Nonce = some k) ∧
      (∀ (key : Key) (client : Client) (hexData : String),
        PreRunE (bindFlags c) = .ok (assigned (bindFlags c)) →
        env.KeyFromFile (bindFlags c).keyfile (bindFlags c).password = .ok key →
        env.Dial (bindFlags c).rpc = .ok client →
        GetAcceptCallData env true = .ok hexData →
        ∃ a, (Execute env c).action = some a ∧ a.Nonce = some k)) := by
  constructor
  · intro n key client hexData sys hraw hp hk hd hg hsys hq
    have hnil : (assigned (bindFlags c)).actionNonce = none := by
      simp only [assigned, hraw, ne_eq, not_true_eq_false, if_false]
    have hres := resolveNonce_none_ok env client _ sys n hsys hq
    rw [Execute_of_ok env c _ hp, RunE_of_ok env _ _ key client hk hd]
    constructor
    · refine ⟨_, (Accept_action_iff ..).2 ⟨hexData, some ((n : Int) + 1), hg, ?_, rfl⟩, rfl⟩
      rw [hnil]
      show (resolveNonce env client (HexToAddress (bindFlags c).accountAddressRaw) none).1 = _
      rw [hres]
    · simp only
      rw [Accept_calls_of_ok _ _ _ _ _ _ _ _ _ _ hexData hg, hnil]
      show _ ++ (resolveNonce env client (HexToAddress (bindFlags c).accountAddressRaw) none).2
        = _
      rw [hres]
      rfl
  · intro s k hraw hs
    have hsne : (bindFlags c).actionNonceRaw ≠ "" := by
      rw [hraw]
      rintro rfl
      rw [SetString_empty] at hs
      cases hs
    have hk1 : (assigned (bindFlags c)).actionNonce = some k := by
      show (if (bindFlags c).actionNonceRaw ≠ "" then
        (SetString (bindFlags c).actionNonceRaw).1 else none) = some k
      rw [if_pos hsne, hraw, hs]
    refine ⟨?_, ?_, ?_⟩
    · intro account hmem
      cases hp : PreRunE (bindFlags c) with
      | error e =>
        rw [Execute_of_PreRunE_error env c e hp] at hmem
        exact List.not_mem_nil _ hmem
      | ok v =>
        have hv := PreRunE_ok_eq _ _ hp
        subst hv
        rw [Execute_of_ok env c _ hp] at hmem
        cases hk : env.KeyFromFile (bindFlags c).keyfile (bindFlags c).password with
        | error e => simp [RunE, hk] at hmem
        | ok key =>
          cases hd : env.Dial (bindFlags c).rpc with
          | error e => simp [RunE, hk, hd] at hmem
          | ok client =>
            rw [RunE_of_ok env _ _ key client hk hd] at hmem
            simp only [List.cons_append, List.nil_append, List.mem_cons, false_or] at hmem
            rcases hmem with hmem | hmem | hmem
            · cases hmem
            · cases hmem
            have := Accept_calls_subset _ _ _ _ _ _ _ _ _ _ _ hmem
            rw [hk1, resolveNonce_some] at this
            exact List.not_mem_nil _ this
    · intro a ha
      obtain ⟨-, key, client, -, -, hacc⟩ := Execute_action_elim env c a ha
      rw [Accept_action_iff] at hacc
      obtain ⟨hexData, n, -, hn, rfl⟩ := hacc
      rw [hk1, resolveNonce_some] at hn
      simp only [Except.ok.injEq] at hn
      exact hn.symm
    · intro key client hexData hp hk hd hg
      rw [Execute_of_ok env c _ hp, RunE_of_ok env _ _ key client hk hd]
      refine ⟨_, (Accept_action_iff ..).2 ⟨hexData, some k, hg, ?_, rfl⟩, rfl⟩
      rw [hk1, resolveNonce_some]

/-- C10. When `--value`, `--fee-token`, `--fee-value` and `--is-basis-points`
are not passed and the remaining flags are valid, `PreRunE` returns no error
and `RunE`, once the key is loaded and the client dialled, calls `Accept` with
value 0, the zero address as fee token, fee value 0 and isBasisPoints false;
an `--action-nonce` that is not passed leaves `actionNonce` nil, and `Accept`
then takes the nonce from the account system's counter. -/
theorem defaults_of_unsupplied_flags (env : Env Key Client) (c : CmdLine)
    (hv : c.value = none) (hft : c.feeToken = none) (hfv : c.feeValue = none)
    (hbp : c.isBasisPoints = none)
    (hk : (bindFlags c).keyfile ≠ "") (hr : (bindFlags c).rpc ≠ "")
    (ht : IsHexAddress (bindFlags c).targetAddressRaw = true)
    (ha : IsHexAddress (bindFlags c).accountAddressRaw = true)
    (hn : c.actionNonce = none ∨ (bindFlags c).actionNonceRaw = "" ∨
      specBase10Integer (bindFlags c).actionNonceRaw = true) :
    PreRunE (bindFlags c) = .ok (assigned (bindFlags c)) ∧
    (assigned (bindFlags c)).value = some 0 ∧
    (assigned (bindFlags c)).feeToken = zeroAddress ∧
    (assigned (bindFlags c)).feeValue = some 0 ∧
    (bindFlags c).isBasisPoints = false ∧
    (∀ (key : Key) (client : Client),
      env.KeyFromFile (bindFlags c).keyfile (bindFlags c).password = .ok key →
      env.Dial (bindFlags c).rpc = .ok client →
      Execute env c =
        { Accept env client key (HexToAddress (bindFlags c).accountAddressRaw)
            (HexToAddress (bindFlags c).targetAddressRaw)
            (assigned (bindFlags c)).actionNonce (some 0) zeroAddress (some 0) false with
          calls := [Call.KeyFromFile (bindFlags c).keyfile (bindFlags c).password,
              Call.Dial (bindFlags c).rpc] ++
            (Accept env client key (HexToAddress (bindFlags c).accountAddressRaw)
              (HexToAddress (bindFlags c).targetAddressRaw)
              (assigned (bindFlags c)).actionNonce (some 0) zeroAddress (some 0) false).calls }) ∧
    (c.actionNonce = none →
      (assigned (bindFlags c)).actionNonce = none ∧
      ∀ (client : Client),
        resolveNonce env client (HexToAddress (bindFlags c).accountAddressRaw)
            (assigned (bindFlags c)).actionNonce =
          match env.NewAccountSystem7702 (HexToAddress (bindFlags c).accountAddressRaw)
              client with
          | .error err => (.error ("failed to get AccountSystem7702 contract: " ++ err), [])
          | .ok accountSystem =>
            match accountSystem.Nonce with
            | .error err => (.error ("failed to get nonce: " ++ err),
                [Call.Nonce (HexToAddress (bindFlags c).accountAddressRaw)])
            | .ok n => (.ok (some ((n : Int) + 1)),
                [Call.Nonce (HexToAddress (bindFlags c).accountAddressRaw)])) := by
  have e1 : (bindFlags c).valueRaw = "0" := by simp only [bindFlags, hv, Option.getD_none]
  have e2 : (bindFlags c).feeTokenRaw = "0x0000000000000000000000000000000000000000" := by
    simp only [bindFlags, hft, Option.getD_none]
  have e3 : (bindFlags c).feeValueRaw = "0" := by simp only [bindFlags, hfv, Option.getD_none]
  have e4 : (bindFlags c).isBasisPoints = false := by
    simp only [bindFlags, hbp, Option.getD_none]
  have hn1 : ¬ ((bindFlags c).actionNonceRaw ≠ "" ∧
      (SetString (bindFlags c).actionNonceRaw).2 = false) := by
    rintro ⟨h1, h2⟩
    rcases hn with h | h | h
    · apply h1; simp only [bindFlags, h, Option.getD_none]
    · exact h1 h
    · rw [(SetString_ok_iff _).2 h] at h2; cases h2
  have ht1 : ¬ IsHexAddress (bindFlags c).targetAddressRaw = false := by rw [ht]; simp
  have ha1 : ¬ IsHexAddress (bindFlags c).accountAddressRaw = false := by rw [ha]; simp
  have hvz : (assigned (bindFlags c)).value = some 0 := by
    simp only [assigned, parsed_or_nil, e1]; decide
  have hfz : (assigned (bindFlags c)).feeToken = zeroAddress := by
    simp only [assigned, e2]; decide
  have hfvz : (assigned (bindFlags c)).feeValue = some 0 := by
    simp only [assigned, parsed_or_nil, e3]; decide
  have hp : PreRunE (bindFlags c) = .ok (assigned (bindFlags c)) := by
    have h6 : ¬ ((bindFlags c).valueRaw ≠ "" ∧ (SetString (bindFlags c).valueRaw).2 = false) := by
      rw [e1]; decide
    have h7 : ¬ IsHexAddress (bindFlags c).feeTokenRaw = false := by rw [e2]; decide
    have h8 : ¬ ((bindFlags c).feeValueRaw ≠ "" ∧
        (SetString (bindFlags c).feeValueRaw).2 = false) := by
      rw [e3]; decide
    unfold PreRunE
    rw [if_neg hk, if_neg hr, if_neg ht1, if_neg ha1, if_neg hn1, if_neg h6, if_neg h7,
      if_neg h8]
    rfl
  refine ⟨hp, hvz, hfz, hfvz, e4, ?_, ?_⟩
  · intro key client hkey hdial
    rw [Execute_of_ok env c _ hp, RunE_of_ok env _ _ key client hkey hdial, hvz, hfz, hfvz, e4]
    rfl
  · intro hnone
    have hnil : (assigned (bindFlags c)).actionNonce = none := by
      simp only [assigned, bindFlags, hnone, Option.getD_none, ne_eq, not_true_eq_false,
        if_false]
    refine ⟨hnil, fun client => ?_⟩
    rw [hnil]
    rfl

end

/-- C1 as stated fails: `--value ""` passes validation, `Accept` builds an
Action, and its Value is the nil pointer, not an integer parsed from the
flag (`SetString` returns no integer for the empty string). -/
theorem empty_value_gives_nil_Value :
    (∃ v, PreRunE (bindFlags { sampleCmdLine with value := some "" }) = .ok v) ∧
    SetString "" = (none, false) ∧
    ∃ a, (Execute sampleEnv { sampleCmdLine with value := some "" }).action = some a ∧
      a.Value = none ∧ ¬ ∃ k : Int, a.Value = some k := by
  refine ⟨⟨_, rfl⟩, by decide, _, rfl, rfl, ?_⟩
  rintro ⟨k, hk⟩
  cases hk

theorem accept_builds_action_from_flags_witness :
    ∃ a, (Execute sampleEnv { sampleCmdLine with
        value := some "1000", feeValue := some "250", isBasisPoints := some false,
        feeToken := some "0x0000000000000000000000000000000000000000" }).action = some a ∧
      a.Value = some 1000 ∧ a.FeeValue = some 250 ∧ a.IsBasisPoints = false ∧
      a.FeeToken = zeroAddress ∧ a.Expiration = some 0 ∧ a.Nonce = some 6 ∧
      ∃ k : Int, SetString "1000" = (some k, true) ∧ a.Value = some k :=
  have h0 := (accept_builds_action_from_flags sampleEnv { sampleCmdLine with
      value := some "1000", feeValue := some "250", isBasisPoints := some false,
      feeToken := some "0x0000000000000000000000000000000000000000" }).2 () () "2852b71c"
      (some 6) rfl rfl rfl rfl rfl
  have h := (accept_builds_action_from_flags sampleEnv { sampleCmdLine with
      value := some "1000", feeValue := some "250", isBasisPoints := some false,
      feeToken := some "0x0000000000000000000000000000000000000000" }).1 _ h0
  ⟨_, h0, h.2.2.2.2.2.2.1 rfl, h.2.2.2.2.2.2.2.1 rfl, h.2.2.2.2.2.2.2.2.1 rfl,
    h.2.2.2.2.2.2.2.2.2 rfl, h.2.2.2.2.2.1, rfl, h.2.1 (by decide)⟩

theorem nonce_resolution_witness :
    (∃ a, (Execute sampleEnv sampleCmdLine).action = some a ∧ a.Nonce = some 6) ∧
    Call.Nonce (HexToAddress "0x00000000000000000000000000000000000000bb") ∉
      (Execute sampleEnv { sampleCmdLine with actionNonce := some "42" }).calls ∧
    (∃ a, (Execute sampleEnv { sampleCmdLine with actionNonce := some "42" }).action = some a ∧
      a.Nonce = some 42) :=
  ⟨((nonce_resolution sampleEnv sampleCmdLine).1 5 () () "2852b71c" ⟨.ok 5⟩ rfl rfl rfl rfl
      rfl rfl rfl).1,
   ((nonce_resolution sampleEnv { sampleCmdLine with actionNonce := some "42" }).2 "42" 42 rfl
      (by decide)).1 _,
   ((nonce_resolution sampleEnv { sampleCmdLine with actionNonce := some "42" }).2 "42" 42 rfl
      (by decide)).2.2 () () "2852b71c" rfl rfl rfl rfl⟩

theorem defaults_of_unsupplied_flags_witness :
    PreRunE (bindFlags sampleCmdLine) = .ok (assigned (bindFlags sampleCmdLine)) ∧
    (assigned (bindFlags sampleCmdLine)).value = some 0 ∧
    (assigned (bindFlags sampleCmdLine)).actionNonce = none :=
  have h := defaults_of_unsupplied_flags sampleEnv sampleCmdLine rfl rfl rfl rfl (by decide)
    (by decide) (by decide) (by decide) (Or.inl rfl)
  ⟨h.1, h.2.1, (h.2.2.2.2.2.2 rfl).1⟩

section
variable {Key Client : Type}

theorem Accept_stdout_cases (env : Env Key Client) (client : Client) (key : Key)
    (accountAddress targetAddress : Address) (actionNonce value : Option Int)
    (feeToken : Address) (feeValue : Option Int) (isBasisPoints : Bool) :
    ((∃ e, (Accept env client key accountAddress targetAddress actionNonce value feeToken
        feeValue isBasisPoints).err = some e) ∧
      (Accept env client key accountAddress targetAddress actionNonce value feeToken
        feeValue isBasisPoints).stdout = []) ∨
    (∃ abi a sig perr, env.AccountSystem7702GetAbi = .ok abi ∧
      env.SignAction a key = .ok sig ∧
      abi.Pack "execute" [PackArg.actions [a], PackArg.byteSlices [sig]] = .error perr ∧
      (Accept env client key accountAddress targetAddress actionNonce value feeToken
        feeValue isBasisPoints).action = some a ∧
      (Accept env client key accountAddress targetAddress actionNonce value feeToken
        feeValue isBasisPoints).err = some ("failed to pack input: " ++ perr) ∧
      (Accept env client key accountAddress targetAddress actionNonce value feeToken
        feeValue isBasisPoints).stdout =
        [Line.signedAction (EncodeToString sig), Line.action a]) ∨
    (∃ abi a sig calldata, env.AccountSystem7702GetAbi = .ok abi ∧
      env.SignAction a key = .ok sig ∧
      abi.Pack "execute" [PackArg.actions [a], PackArg.byteSlices [sig]] = .ok calldata ∧
      (Accept env client key accountAddress targetAddress actionNonce value feeToken
        feeValue isBasisPoints).action = some a ∧
      (Accept env client key accountAddress targetAddress actionNonce value feeToken
        feeValue isBasisPoints).err = none ∧
      (Accept env client key accountAddress targetAddress actionNonce value feeToken
        feeValue isBasisPoints).stdout =
        [Line.signedAction (EncodeToString sig), Line.action a,
          Line.calldata (EncodeToString calldata)]) := by
  unfold Accept
  cases hg : GetAcceptCallData env true with
  | error err => left; exact ⟨⟨_, rfl⟩, rfl⟩
  | ok hexData =>
    rcases hr : resolveNonce env client accountAddress actionNonce with ⟨(err | n), calls⟩
    · left; exact ⟨⟨_, rfl⟩, rfl⟩
    · simp only
      cases habi : env.AccountSystem7702GetAbi with
      | error err => left; exact ⟨⟨_, rfl⟩, rfl⟩
      | ok abi =>
        simp only
        cases hsig : env.SignAction _ key with
        | error err => left; exact ⟨⟨_, rfl⟩, rfl⟩
        | ok sig =>
          simp only
          cases hpack : abi.Pack "execute" _ with
          | error err =>
            right; left
            exact ⟨abi, _, sig, err, rfl, hsig, hpack, rfl, rfl, rfl⟩
          | ok calldata =>
            right; right
            exact ⟨abi, _, sig, calldata, rfl, hsig, hpack, rfl, rfl, rfl⟩

theorem Execute_cases (env : Env Key Client) (c : CmdLine) :
    ((∃ e, (Execute env c).err = some e) ∧ (Execute env c).stdout = []) ∨
    (∃ key client, PreRunE (bindFlags c) = .ok (assigned (bindFlags c)) ∧
      env.KeyFromFile (bindFlags c).keyfile (bindFlags c).password = .ok key ∧
      env.Dial (bindFlags c).rpc = .ok client ∧
      Execute env c =
        { Accept env client key (assigned (bindFlags c)).accountAddress
            (assigned (bindFlags c)).targetAddress (assigned (bindFlags c)).actionNonce
            (assigned (bindFlags c)).value (assigned (bindFlags c)).feeToken
            (assigned (bindFlags c)).feeValue (bindFlags c).isBasisPoints with
          calls := [Call.KeyFromFile (bindFlags c).keyfile (bindFlags c).password,
              Call.Dial (bindFlags c).rpc] ++
            (Accept env client key (assigned (bindFlags c)).accountAddress
              (assigned (bindFlags c)).targetAddress (assigned (bindFlags c)).actionNonce
              (assigned (bindFlags c)).value (assigned (bindFlags c)).feeToken
              (assigned (bindFlags c)).feeValue (bindFlags c).isBasisPoints).calls }) := by
  cases hp : PreRunE (bindFlags c) with
  | error e =>
    left
    rw [Execute_of_PreRunE_error env c e hp]
    exact ⟨⟨e, rfl⟩, rfl⟩
  | ok v =>
    have hv := PreRunE_ok_eq _ _ hp
    subst hv
    rw [Execute_of_ok env c _ hp]
    cases hk : env.KeyFromFile (bindFlags c).keyfile (bindFlags c).password with
    | error e => left; simp [RunE, hk]
    | ok key =>
      cases hd : env.Dial (bindFlags c).rpc with
      | error e => left; simp [RunE, hk, hd]
      | ok client =>
        right
        exact ⟨key, client, rfl, rfl, rfl, RunE_of_ok env _ _ key client hk hd⟩

theorem Execute_after_sign (env : Env Key Client) (c : CmdLine) (key : Key) (abi : ABI)
    (a : Action) (sig : Bytes)
    (hk : env.KeyFromFile (bindFlags c).keyfile (bindFlags c).password = .ok key)
    (habi : env.AccountSystem7702GetAbi = .ok abi)
    (hact : (Execute env c).action = some a)
    (hsig : env.SignAction a key = .ok sig) :
    ((Execute env c).err, (Execute env c).stdout) =
      match abi.Pack "execute" [PackArg.actions [a], PackArg.byteSlices [sig]] with
      | .error err => (some ("failed to pack input: " ++ err),
          [Line.signedAction (EncodeToString sig), Line.action a])
      | .ok calldata => (none,
          [Line.signedAction (EncodeToString sig), Line.action a,
            Line.calldata (EncodeToString calldata)]) := by
  obtain ⟨hp, key1, client, hk1, hd, hacc⟩ := Execute_action_elim env c a hact
  rw [hk] at hk1
  have hkey : key1 = key := (Except.ok.inj hk1).symm
  subst hkey
  rw [Accept_action_iff] at hacc
  obtain ⟨hexData, n, hg, hn, ha⟩ := hacc
  subst ha
  rw [Execute_of_ok env c _ hp, RunE_of_ok env _ _ key1 client hk hd,
    Accept_after_sign env client key1 _ _ _ _ _ _ _ hexData n abi sig hg hn habi hsig]
  cases abi.Pack "execute" _ with
  | error err => rfl
  | ok calldata => rfl

/-- C7, as amended. When every step up to and including signing has
succeeded and the packing of the execute call fails, the run returns the
packing error after the `signedAction` line of the signature and the `action`
line of the Action have been printed; when the packing succeeds the run
returns no error and has printed these two lines and the `calldata` line.
A run that returns an error at any other step has written nothing to
standard output, and the `calldata` line is printed only on runs that return
no error. -/
theorem output_on_error (env : Env Key Client) (c : CmdLine) :
    (∀ (key : Key) (abi : ABI) (a : Action) (sig : Bytes) (perr : String),
      env.KeyFromFile (bindFlags c).keyfile (bindFlags c).password = .ok key →
      env.AccountSystem7702GetAbi = .ok abi →
      (Execute env c).action = some a →
      env.SignAction a key = .ok sig →
      abi.Pack "execute" [PackArg.actions [a], PackArg.byteSlices [sig]] = .error perr →
      (Execute env c).err = some ("failed to pack input: " ++ perr) ∧
      (Execute env c).stdout = [Line.signedAction (EncodeToString sig), Line.action a]) ∧
    (∀ (key : Key) (abi : ABI) (a : Action) (sig calldata : Bytes),
      env.KeyFromFile (bindFlags c).keyfile (bindFlags c).password = .ok key →
      env.AccountSystem7702GetAbi = .ok abi →
      (Execute env c).action = some a →
      env.SignAction a key = .ok sig →
      abi.Pack "execute" [PackArg.actions [a], PackArg.byteSlices [sig]] = .ok calldata →
      (Execute env c).err = none ∧
      (Execute env c).stdout = [Line.signedAction (EncodeToString sig), Line.action a,
        Line.calldata (EncodeToString calldata)]) ∧
    (∀ e, (Execute env c).err = some e →
      (¬ ∃ (key : Key) (abi : ABI) (a : Action) (sig : Bytes) (perr : String),
        env.KeyFromFile (bindFlags c).keyfile (bindFlags c).password = .ok key ∧
        env.AccountSystem7702GetAbi = .ok abi ∧
        (Execute env c).action = some a ∧
        env.SignAction a key = .ok sig ∧
        abi.Pack "execute" [PackArg.actions [a], PackArg.byteSlices [sig]] = .error perr) →
      (Execute env c).stdout = []) ∧
    (∀ l, Line.calldata l ∈ (Execute env c).stdout → (Execute env c).err = none) := by
  refine ⟨?_, ?_, ?_, ?_⟩
  · intro key abi a sig perr hk habi hact hsig hpack
    have h := Execute_after_sign env c key abi a sig hk habi hact hsig
    rw [hpack] at h
    exact ⟨(Prod.mk.inj h).1, (Prod.mk.inj h).2⟩
  · intro key abi a sig calldata hk habi hact hsig hpack
    have h := Execute_after_sign env c key abi a sig hk habi hact hsig
    rw [hpack] at h
    exact ⟨(Prod.mk.inj h).1, (Prod.mk.inj h).2⟩
  · intro e he hnot
    rcases Execute_cases env c with ⟨-, hout⟩ | ⟨key, client, -, hk, -, hex⟩
    · exact hout
    · rcases Accept_stdout_cases env client key (assigned (bindFlags c)).accountAddress
          (assigned (bindFlags c)).targetAddress (assigned (bindFlags c)).actionNonce
          (assigned (bindFlags c)).value (assigned (bindFlags c)).feeToken
          (assigned (bindFlags c)).feeValue (bindFlags c).isBasisPoints with
        ⟨-, hout⟩ | ⟨abi, a, sig, perr, habi, hsig, hpack, hact, -, -⟩ |
        ⟨abi, a, sig, calldata, -, -, -, -, herr, -⟩
      · rw [hex]
        exact hout
      · exfalso
        apply hnot
        refine ⟨key, abi, a, sig, perr, hk, habi, ?_, hsig, hpack⟩
        rw [hex]
        exact hact
      · rw [hex] at he
        simp only at he
        rw [herr] at he
        cases he
  · intro l hl
    rcases Execute_cases env c with ⟨-, hout⟩ | ⟨key, client, -, -, -, hex⟩
    · rw [hout] at hl
      exact absurd hl (List.not_mem_nil _)
    · rw [hex] at hl ⊢
      simp only at hl ⊢
      rcases Accept_stdout_cases env client key (assigned (bindFlags c)).accountAddress
          (assigned (bindFlags c)).targetAddress (assigned (bindFlags c)).actionNonce
          (assigned (bindFlags c)).value (assigned (bindFlags c)).feeToken
          (assigned (bindFlags c)).feeValue (bindFlags c).isBasisPoints with
        ⟨-, hout⟩ | ⟨abi, a, sig, perr, -, -, -, -, -, hout⟩ |
        ⟨abi, a, sig, calldata, -, -, -, -, herr, -⟩
      · rw [hout] at hl
        exact absurd hl (List.not_mem_nil _)
      · rw [hout] at hl
        simp at hl
      · exact herr

/-- C8. `GetAcceptCallData` does not depend on its argument, and when the
interface loads and packs the zero-argument method `accept` to the bytes `b`,
every call returns the hex encoding of `b`, `common.FromHex` decodes that
string back to exactly `b`, every Action that a run builds, whatever the
flags, has Data equal to `b`, and a run whose flags pass validation, whose
key loads, whose client is dialled and whose nonce is resolved does build an
Action, with Data equal to `b`. -/
theorem accept_call_data_fixed (env : Env Key Client) :
    (∀ boost1 boost2, GetAcceptCallData env boost1 = GetAcceptCallData env boost2) ∧
    (∀ (abi : ABI) (b : Bytes), env.DegenGambitGetAbi = .ok abi →
      abi.Pack "accept" [] = .ok b →
      (∀ boost, GetAcceptCallData env boost = .ok (EncodeToString b)) ∧
      FromHex (EncodeToString b) = b ∧
      (∀ (c : CmdLine) (a : Action), (Execute env c).action = some a → a.Data = b) ∧
      (∀ (c : CmdLine) (key : Key) (client : Client) (n : Option Int),
        PreRunE (bindFlags c) = .ok (assigned (bindFlags c)) →
        env.KeyFromFile (bindFlags c).keyfile (bindFlags c).password = .ok key →
        env.Dial (bindFlags c).rpc = .ok client →
        (resolveNonce env client (HexToAddress (bindFlags c).accountAddressRaw)
          (assigned (bindFlags c)).actionNonce).1 = .ok n →
        ∃ a, (Execute env c).action = some a ∧ a.Data = b)) := by
  refine ⟨fun _ _ => rfl, ?_⟩
  intro abi b habi hpack
  have hg : ∀ boost, GetAcceptCallData env boost = .ok (EncodeToString b) := by
    intro boost
    simp only [GetAcceptCallData, habi, hpack]
  refine ⟨hg, FromHex_EncodeToString b, ?_, ?_⟩
  · intro c a h
    obtain ⟨-, key, client, -, -, hacc⟩ := Execute_action_elim env c a h
    rw [Accept_action_iff] at hacc
    obtain ⟨hexData, n, hg1, -, rfl⟩ := hacc
    rw [hg true] at hg1
    simp only [Except.ok.injEq] at hg1
    subst hg1
    exact FromHex_EncodeToString b
  · intro c key client n hp hk hd hn
    rw [Execute_of_ok env c _ hp, RunE_of_ok env _ _ key client hk hd]
    refine ⟨_, (Accept_action_iff ..).2 ⟨EncodeToString b, n, hg true, hn, rfl⟩, ?_⟩
    exact FromHex_EncodeToString b

end

/-- C7 as stated fails: when the interface cannot pack the execute call, the
run returns the packing error after the `signedAction` and `action` lines
have been printed. -/
theorem output_before_pack_error :
    ∃ a, (Execute { sampleEnv with AccountSystem7702GetAbi := .ok failingPackABI }
        sampleCmdLine).err = some "failed to pack input: argument count mismatch" ∧
      (Execute { sampleEnv with AccountSystem7702GetAbi := .ok failingPackABI }
        sampleCmdLine).stdout = [Line.signedAction "abcd", Line.action a] :=
  ⟨_, by decide, rfl⟩

theorem output_on_error_witness :
    (Execute { sampleEnv with AccountSystem7702GetAbi := .ok failingPackABI }
        sampleCmdLine).stdout =
      [Line.signedAction (EncodeToString [0xab, 0xcd]),
        Line.action ⟨HexToAddress "0x00000000000000000000000000000000000000aa",
          [0x28, 0x52, 0xb7, 0x1c], some 0, some 6, some 0, zeroAddress, some 0, false⟩] ∧
    (Execute { sampleEnv with SignAction := fun _ _ => .error "no key" } sampleCmdLine).err
      = some "failed to sign action: no key" ∧
    (Execute { sampleEnv with SignAction := fun _ _ => .error "no key" } sampleCmdLine).stdout
      = [] ∧
    (Execute sampleEnv sampleCmdLine).stdout =
      [Line.signedAction (EncodeToString [0xab, 0xcd]),
        Line.action ⟨HexToAddress "0x00000000000000000000000000000000000000aa",
          [0x28, 0x52, 0xb7, 0x1c], some 0, some 6, some 0, zeroAddress, some 0, false⟩,
        Line.calldata (EncodeToString [0xde, 0xad])] :=
  ⟨((output_on_error { sampleEnv with AccountSystem7702GetAbi := .ok failingPackABI }
      sampleCmdLine).1 () failingPackABI _ [0xab, 0xcd] "argument count mismatch" rfl rfl
      (by decide) rfl rfl).2,
   by decide,
   (output_on_error { sampleEnv with SignAction := fun _ _ => .error "no key" }
      sampleCmdLine).2.2.1 "failed to sign action: no key" (by decide)
      (fun ⟨_, _, _, _, _, _, _, _, hsig, _⟩ => by cases hsig),
   ((output_on_error sampleEnv sampleCmdLine).2.1 () sampleABI _ [0xab, 0xcd] [0xde, 0xad]
      rfl rfl (by decide) rfl rfl).2⟩

theorem accept_call_data_fixed_witness :
    GetAcceptCallData sampleEnv false = .ok "2852b71c" ∧
    FromHex "2852b71c" = [0x28, 0x52, 0xb7, 0x1c] ∧
    ∃ a, (Execute sampleEnv sampleCmdLine).action = some a ∧
      a.Data = [0x28, 0x52, 0xb7, 0x1c] :=
  have h := (accept_call_data_fixed sampleEnv).2 sampleABI [0x28, 0x52, 0xb7, 0x1c] rfl rfl
  ⟨h.1 false, h.2.1, h.2.2.2 sampleCmdLine () () (some 6) rfl rfl rfl rfl⟩

section
variable {Key Client : Type}

theorem Execute_success (env : Env Key Client) (c : CmdLine)
    (hok : (Execute env c).err = none) :
    ∃ key client abi a sig calldata,
      env.KeyFromFile (bindFlags c).keyfile (bindFlags c).password = .ok key ∧
      env.Dial (bindFlags c).rpc = .ok client ∧
      env.AccountSystem7702GetAbi = .ok abi ∧
      env.SignAction a key = .ok sig ∧
      abi.Pack "execute" [PackArg.actions [a], PackArg.byteSlices [sig]] = .ok calldata ∧
      (Execute env c).action = some a ∧
      (Execute env c).stdout = [Line.signedAction (EncodeToString sig), Line.action a,
        Line.calldata (EncodeToString calldata)] := by
  rcases Execute_cases env c with ⟨⟨e0, he0⟩, -⟩ | ⟨key, client, -, hk, hd, hex⟩
  · rw [he0] at hok; cases hok
  · rw [hex] at hok ⊢
    simp only at hok ⊢
    rcases Accept_stdout_cases env client key (assigned (bindFlags c)).accountAddress
        (assigned (bindFlags c)).targetAddress (assigned (bindFlags c)).actionNonce
        (assigned (bindFlags c)).value (assigned (bindFlags c)).feeToken
        (assigned (bindFlags c)).feeValue (bindFlags c).isBasisPoints with
      ⟨⟨e0, he0⟩, -⟩ | ⟨abi, a, sig, perr, -, -, -, -, herr, -⟩ |
      ⟨abi, a, sig, calldata, habi, hsig, hpack, hact, -, hout⟩
    · rw [he0] at hok; cases hok
    · rw [herr] at hok; cases hok
    · exact ⟨key, client, abi, a, sig, calldata, hk, hd, habi, hsig, hpack, hact, hout⟩

/-- C9, as amended. In every run in which `Accept` succeeds, with the account
system's interface packing `execute` as the ABI prescribes, the printed
calldata is the packing of `execute` on two one-element lists, the first
holding the Action that was passed to `SignAction` and the second the
signature it returned; decoding that calldata gives back one Action and one
signature, the signature, Target, Data, FeeToken and IsBasisPoints exactly
and Value, Nonce, Expiration and FeeValue modulo 2^256, so that every field
is reproduced exactly when Value, Nonce and FeeValue lie between 0 and
2^256 - 1 (byte strings are shorter than 2^63 bytes, as Go slices are). -/
theorem execute_calldata_round_trip (env : Env Key Client) (c : CmdLine) (methodID : Bytes)
    (hID : methodID.length = 4)
    (habi : env.AccountSystem7702GetAbi = .ok (accountSystemABI methodID))
    (hok : (Execute env c).err = none) :
    ∃ key a sig calldata,
      env.KeyFromFile (bindFlags c).keyfile (bindFlags c).password = .ok key ∧
      (Execute env c).action = some a ∧
      env.SignAction a key = .ok sig ∧
      packExecute methodID [PackArg.actions [a], PackArg.byteSlices [sig]] = .ok calldata ∧
      (Execute env c).stdout = [Line.signedAction (EncodeToString sig), Line.action a,
        Line.calldata (EncodeToString calldata)] ∧
      (a.Data.length < 2 ^ 63 → sig.length < 2 ^ 63 →
        unpackExecute calldata = some ([wrappedAction a], [sig]) ∧
        (wrappedAction a).Target = a.Target ∧ (wrappedAction a).Data = a.Data ∧
        (wrappedAction a).Expiration = a.Expiration ∧
        (wrappedAction a).FeeToken = a.FeeToken ∧
        (wrappedAction a).IsBasisPoints = a.IsBasisPoints ∧
        (fitsUint256 a.Value = true → fitsUint256 a.Nonce = true →
          fitsUint256 a.FeeValue = true →
          unpackExecute calldata = some ([a], [sig]))) := by
  obtain ⟨key, client, abi, a, sig, calldata, hk, -, habi1, hsig, hpack, hact, hout⟩ :=
    Execute_success env c hok
  rw [habi] at habi1
  have habi2 : abi = accountSystemABI methodID := (Except.ok.inj habi1).symm
  subst habi2
  have hpack1 : packExecute methodID [PackArg.actions [a], PackArg.byteSlices [sig]]
      = .ok calldata := by
    simp only [accountSystemABI, if_true] at hpack
    exact hpack
  refine ⟨key, a, sig, calldata, hk, hact, hsig, hpack1, hout, ?_⟩
  intro hD hS
  obtain ⟨-, key1, client1, -, -, hacc⟩ := Execute_action_elim env c a hact
  rw [Accept_action_iff] at hacc
  obtain ⟨hexData, n, -, -, ha⟩ := hacc
  have hT : a.Target.length = 20 := by rw [ha]; exact HexToAddress_length _
  have hF : a.FeeToken.length = 20 := by rw [ha]; exact HexToAddress_length _
  have hE : a.Expiration = some 0 := by rw [ha]
  have hrt := unpackExecute_packExecute methodID calldata sig a hID hpack1 hT hF hD hS
  have hEw : (wrappedAction a).Expiration = a.Expiration := by
    simp only [wrappedAction, hE, wrapUint256]
    rfl
  refine ⟨hrt, rfl, rfl, hEw, rfl, rfl, ?_⟩
  intro hV hN hFV
  have hEf : fitsUint256 a.Expiration = true := by rw [hE]; decide
  rw [wrappedAction_of_fits a hV hN hEf hFV] at hrt
  exact hrt

end

/-- C9 as stated fails: with `--value -1` and a signer that signs, `Accept`
succeeds and prints the calldata, the value word of the packed calldata is
2^256 - 1, and decoding the calldata gives an Action whose Value is
2^256 - 1, not -1. -/
theorem round_trip_fails_on_negative_value :
    (Execute abiEnv negativeValueCmdLine).err = none ∧
    (Execute abiEnv negativeValueCmdLine).action = some negativeValueAction ∧
    abiEnv.SignAction negativeValueAction () = .ok [0xab, 0xcd] ∧
    ∃ calldata,
      packExecute [0xde, 0xad, 0xbe, 0xef]
        [PackArg.actions [negativeValueAction], PackArg.byteSlices [[0xab, 0xcd]]]
        = .ok calldata ∧
      (Execute abiEnv negativeValueCmdLine).stdout = [Line.signedAction "abcd",
        Line.action negativeValueAction, Line.calldata (EncodeToString calldata)] ∧
      unpackExecute calldata = some ([wrappedAction negativeValueAction], [[0xab, 0xcd]]) ∧
      negativeValueAction.Value = some (-1) ∧
      (wrappedAction negativeValueAction).Value = some
        115792089237316195423570985008687907853269984665640564039457584007913129639935 ∧
      wrappedAction negativeValueAction ≠ negativeValueAction := by
  have hact0 : (Execute abiEnv negativeValueCmdLine).action = some negativeValueAction := by
    decide
  obtain ⟨key, client, abi, a, sig, calldata, -, -, habi, hsig, hpack, hact, hout⟩ :=
    Execute_success abiEnv negativeValueCmdLine (by decide)
  rw [hact0] at hact
  have ha : a = negativeValueAction := (Option.some.inj hact).symm
  subst ha
  have hs : sig = [0xab, 0xcd] := by
    have h0 : abiEnv.SignAction negativeValueAction key = .ok [0xab, 0xcd] := rfl
    rw [h0] at hsig
    exact (Except.ok.inj hsig).symm
  subst hs
  have habi0 : abiEnv.AccountSystem7702GetAbi = .ok (accountSystemABI [0xde, 0xad, 0xbe, 0xef]) :=
    rfl
  rw [habi0] at habi
  have habi1 : abi = accountSystemABI [0xde, 0xad, 0xbe, 0xef] := (Except.ok.inj habi).symm
  subst habi1
  have hpack1 : packExecute [0xde, 0xad, 0xbe, 0xef]
      [PackArg.actions [negativeValueAction], PackArg.byteSlices [[0xab, 0xcd]]]
      = .ok calldata := by
    simp only [accountSystemABI, if_true] at hpack
    exact hpack
  have henc : EncodeToString [0xab, 0xcd] = "abcd" := by decide
  rw [henc] at hout
  refine ⟨by decide, hact0, rfl, calldata, hpack1, hout, ?_, rfl, ?_, ?_⟩
  · exact unpackExecute_packExecute [0xde, 0xad, 0xbe, 0xef] calldata [0xab, 0xcd]
      negativeValueAction rfl hpack1 (by decide) (by decide) (by decide) (by decide)
  · decide
  · decide

theorem execute_calldata_round_trip_witness :
    ∃ key a sig calldata,
      abiEnv.KeyFromFile (bindFlags sampleCmdLine).keyfile (bindFlags sampleCmdLine).password
        = .ok key ∧
      (Execute abiEnv sampleCmdLine).action = some a ∧
      abiEnv.SignAction a key = .ok sig ∧
      packExecute [0xde, 0xad, 0xbe, 0xef] [PackArg.actions [a], PackArg.byteSlices [sig]]
        = .ok calldata ∧
      unpackExecute calldata = some ([a], [sig]) := by
  obtain ⟨key, a, sig, calldata, hk, ha, hs, hp, -, h⟩ :=
    execute_calldata_round_trip abiEnv sampleCmdLine [0xde, 0xad, 0xbe, 0xef] rfl rfl
      (by decide)
  have ha1 : a = { negativeValueAction with Value := some 0 } := by
    have h0 : (Execute abiEnv sampleCmdLine).action =
        some { negativeValueAction with Value := some 0 } := by decide
    rw [h0] at ha
    exact (Option.some.inj ha).symm
  have hs1 : sig = [0xab, 0xcd] := by
    have h0 : abiEnv.SignAction a key = .ok [0xab, 0xcd] := rfl
    rw [h0] at hs
    exact (Except.ok.inj hs).symm
  subst ha1 hs1
  exact ⟨key, _, _, calldata, hk, ha, hs, hp,
    (h (by decide) (by decide)).2.2.2.2.2.2 (by decide) (by decide) (by decide)⟩

end Accept7702
